import Mathlib

/-!
# The instance PUT handler of the daemon (`incus/instance_put.go`)

A shallow embedding of `instancePut` and `instanceSnapRestore`.

* Go values become Lean data: maps are association lists read through
  `GoMap.get` and written through `GoMap.set`, errors are `Error` values,
  a `(T, error)` result is an `Except Error T`, an `error` result is an
  `Option Error` (`none` is `nil`).
* Every function of another package that the handler calls (instance loader,
  ETag check, JSON decoder, architecture table, cluster database, operation
  tracker, instance drivers, UUID generator) is a field of `Env`: the handler
  is verified for every behaviour of its collaborators.  Those that touch the
  outside world take the world `W` and return the next one.
* Every call with an effect is appended to a trace of `Event`s, so "X is not
  invoked" is a statement about the trace.
* The Go closures (`do`, the transaction's work function) are Lean functions
  over the state at the time they are run.
* The transaction gateway `db.Cluster.Transaction`, whose source is not
  present, is the definition `Transaction`, written from the specification.
-/

namespace Incus

/-! ## Data model -/

/-- Go `error` value: its message and, for an `api.StatusError`, the HTTP status it carries. -/
structure Error where
  msg : String
  status : Option Nat
  deriving DecidableEq, Repr

/-- The error made by `fmt.Errorf` from an already formatted message: a plain error. -/
def fmt.Errorf (msg : String) : Error := ⟨msg, none⟩

/-- Go `map[string]V`, as an association list with at most one live entry per key. -/
abbrev GoMap (V : Type) := List (String × V)

/-- Map read `m[k]` (with the presence flag). -/
def GoMap.get {V : Type} : GoMap V → String → Option V
  | [], _ => none
  | (k1, v) :: rest, k => if k1 = k then some v else GoMap.get rest k

/-- Map write `m[k] = v`: replaces the entry of `k` when there is one, adds it otherwise. -/
def GoMap.set {V : Type} : GoMap V → String → V → GoMap V
  | [], k, v => [(k, v)]
  | (k1, v1) :: rest, k, v => if k1 = k then (k, v) :: rest else (k1, v1) :: GoMap.set rest k v

/-- The keys of a map. -/
def GoMap.keys {V : Type} (m : GoMap V) : List String := m.map Prod.fst

abbrev ConfigMap := GoMap String
abbrev DeviceMap := GoMap ConfigMap

/-- Result of `deviceConfig.NewDevices`. -/
structure Devices where
  entries : DeviceMap
  deriving DecidableEq, Repr

/-- The values of `instancetype.Type`. -/
inductive InstanceType
  | Any
  | Container
  | VM
  deriving DecidableEq, Repr

/-- A database profile row (`cluster.Profile`). -/
structure Profile where
  id : Nat
  name : String
  deriving DecidableEq, Repr

/-- The API projection of a profile (`api.Profile`). -/
structure APIProfile where
  name : String
  description : String
  config : ConfigMap
  devices : DeviceMap
  deriving DecidableEq, Repr

/-- What the handler reads from a loaded `instance.Instance` through its accessor methods. -/
structure Instance where
  project : String
  name : String
  Architecture : Int
  LocalConfig : ConfigMap
  LocalDevices : Devices
  IsEphemeral : Bool
  Profiles : List APIProfile
  type : InstanceType
  deriving DecidableEq, Repr

/-- The request body, `api.InstancePut`. -/
structure InstancePut where
  Architecture : String
  Config : ConfigMap
  Devices : DeviceMap
  Ephemeral : Bool
  Profiles : List String
  Restore : String
  Stateful : Bool
  Description : String
  deriving DecidableEq, Repr

/-- The fields of `db.InstanceArgs` that the handler sets (the others keep their zero value). -/
structure InstanceArgs where
  Architecture : Int
  Config : ConfigMap
  Description : String
  Devices : Devices
  Ephemeral : Bool
  Profiles : List APIProfile
  Project : String
  deriving DecidableEq, Repr

/-- The tuple handed to `util.EtagCheck`, in the order of the source. -/
structure Etag where
  architecture : Int
  localConfig : ConfigMap
  localDevices : Devices
  ephemeral : Bool
  profiles : List APIProfile
  deriving DecidableEq, Repr

/-- The parts of `*http.Request` that the handler reads. -/
structure Request where
  url : String
  nameVar : String
  ifMatch : Option String
  body : String
  deriving DecidableEq, Repr

/-- An `api.URL` built by `api.NewURL().Path(parts...)`: its path segments, in order. -/
structure URL where
  path : List String
  deriving DecidableEq, Repr

abbrev Resources := GoMap (List URL)

inductive OperationClass
  | OperationClassTask
  | OperationClassWebsocket
  | OperationClassToken
  deriving DecidableEq, Repr

/-- The two `operationtype.Type` values this handler uses. -/
inductive OperationType
  | InstanceUpdate
  | SnapshotRestore
  deriving DecidableEq, Repr

/-- One call with an effect, as recorded in the trace. -/
inductive Event
  | forwardedResponseIfInstanceIsRemote (projectName name : String)
  | LoadByProjectAndName (projectName name : String)
  | Decode
  | TransactionBegin
  | GetProfilesIfEnabled (projectName : String) (names : List String)
  | ToAPI (profile : Profile)
  | AllowInstanceUpdate (projectName name : String)
  | TransactionRollback
  | TransactionRerun
  | TransactionCommit
  | OperationCreate (projectName : String) (opClass : OperationClass) (opType : OperationType)
      (resources : Resources)
  | Update (inst : Instance) (args : InstanceArgs) (userRequested : Bool)
  | Restore (inst : Instance) (source : Instance) (stateful : Bool)
  | uuidNew (value : String)
  deriving DecidableEq, Repr

/-- The state threaded through the handler: the outside world and the trace of calls made so far. -/
structure St (W : Type) where
  world : W
  trace : List Event

/-- Move to the world `w` after a call and record the call. -/
def St.log {W : Type} (st : St W) (w : W) (e : Event) : St W := ⟨w, st.trace ++ [e]⟩

/-- A Go closure `func(...) error` run later: from the state at run time to its result. -/
abbrev Run (W : Type) := St W → Option Error × St W

/-- What `operations.OperationCreate` is given (`nil` arguments are `none`). -/
structure Operation (W : Type) where
  projectName : String
  opClass : OperationClass
  opType : OperationType
  resources : Resources
  metadata : Option Unit
  onRun : Option (Run W)
  onCancel : Option (Run W)
  onConnect : Option (Run W)

inductive Response (W : Type)
  | SmartError (err : Error)
  | BadRequest (err : Error)
  | PreconditionFailed (err : Error)
  | InternalError (err : Error)
  | Forwarded (resp : Nat)
  | OperationResponse (op : Operation W)

/-- The collaborators of the handler that live in other packages, taken as parameters. -/
structure Env (W : Type) where
  /-- The constant `version.APIVersion` -/
  APIVersion : String
  /-- The constant `shared.SnapshotDelimiter` -/
  SnapshotDelimiter : String
  /-- The function `shared.IsSnapshot` -/
  IsSnapshot : String → Bool
  /-- The function `response.IsNotFoundError` -/
  IsNotFoundError : Error → Bool
  urlInstanceTypeDetect : Request → Except Error InstanceType
  projectParam : Request → String
  /-- The function `url.PathUnescape` -/
  PathUnescape : String → Except Error String
  forwardedResponseIfInstanceIsRemote :
    Request → String → String → InstanceType → W → Except Error (Option Nat) × W
  /-- The function `instance.LoadByProjectAndName` -/
  LoadByProjectAndName : String → String → W → Except Error Instance × W
  /-- The function `util.EtagCheck` -/
  EtagCheck : Request → Etag → Option Error
  /-- The function `json.NewDecoder(r.Body).Decode` into an `api.InstancePut` -/
  Decode : String → Except Error InstancePut
  /-- The function `osarch.ArchitectureId` -/
  ArchitectureId : String → Except Error Int
  /-- How many times the cluster store refuses the commit of a transaction whose work succeeded. -/
  commitRefusals : Nat
  /-- The function `cluster.GetProfilesIfEnabled` -/
  GetProfilesIfEnabled : String → List String → W → Except Error (List Profile) × W
  /-- The function `(*cluster.Profile).ToAPI` -/
  ToAPI : Profile → W → Except Error APIProfile × W
  /-- The function `projecthelpers.AllowInstanceUpdate` -/
  AllowInstanceUpdate : String → String → InstancePut → ConfigMap → W → Option Error × W
  /-- The function `deviceConfig.NewDevices` -/
  NewDevices : DeviceMap → Devices
  /-- Whether `operations.OperationCreate` registers the operation. -/
  OperationCreate :
    String → OperationClass → OperationType → Resources → W → Option Error × W
  /-- The function `(instance.Instance).Update` -/
  Update : Instance → InstanceArgs → Bool → W → Option Error × W
  /-- The function `(instance.Instance).Restore` -/
  Restore : Instance → Instance → Bool → W → Option Error × W
  /-- The function `uuid.New` -/
  uuidNew : W → String × W

/-! ## The cluster transaction gateway -/

/-- Modelled from the spec: `db.Cluster.Transaction` (package `db`, of which only the test file
is present). §4.2: it opens a session, executes `work`, commits only if `work` returns success,
and any error of `work` aborts and is propagated unchanged. A commit that the store refuses makes
the gateway run `work` again; `refusals` is the number of refused commits. `work` is a closure
over the variables `k` of the caller that it may assign. -/
def Transaction {W κ : Type} (work : κ → St W → Option Error × κ × St W) :
    Nat → κ → St W → Option Error × κ × St W
  | 0, k, st =>
    match work k (st.log st.world .TransactionBegin) with
    | (some err, k1, st1) => (some err, k1, st1.log st1.world .TransactionRollback)
    | (none, k1, st1) => (none, k1, st1.log st1.world .TransactionCommit)
  | refusals + 1, k, st =>
    match work k (st.log st.world .TransactionBegin) with
    | (some err, k1, st1) => (some err, k1, st1.log st1.world .TransactionRollback)
    | (none, k1, st1) => Transaction work refusals k1 (st1.log st1.world .TransactionRerun)

/-! ## `instanceSnapRestore` (instance_put.go, lines 188-218) -/

/-- Lines 188-218. `LocalConfig()` hands out the map of the instance itself, so the write of line
210 changes the source that `Restore` then receives. -/
def instanceSnapRestore {W : Type} (env : Env W) (projectName name snap : String)
    (stateful : Bool) (st : St W) : Option Error × St W :=
  -- normalize snapshot name
  let snap := if !env.IsSnapshot snap then name ++ env.SnapshotDelimiter ++ snap else snap
  match env.LoadByProjectAndName projectName name st.world with
  | (.error err, w1) => (some err, st.log w1 (.LoadByProjectAndName projectName name))
  | (.ok inst, w1) =>
    let st1 := st.log w1 (.LoadByProjectAndName projectName name)
    match env.LoadByProjectAndName projectName snap st1.world with
    | (.error err, w2) =>
      let st2 := st1.log w2 (.LoadByProjectAndName projectName snap)
      if env.IsNotFoundError err then
        (some (fmt.Errorf ("Snapshot " ++ snap ++ " does not exist")), st2)
      else
        (some err, st2)
    | (.ok source, w2) =>
      let st2 := st1.log w2 (.LoadByProjectAndName projectName snap)
      -- source.LocalConfig()["volatile.uuid.generation"] = uuid.New()
      let (u, w3) := env.uuidNew st2.world
      let st3 := st2.log w3 (.uuidNew u)
      let source := { source with
        LocalConfig := GoMap.set source.LocalConfig "volatile.uuid.generation" u }
      match env.Restore inst source stateful st3.world with
      | (some err, w4) => (some err, st3.log w4 (.Restore inst source stateful))
      | (none, w4) => (none, st3.log w4 (.Restore inst source stateful))

/-! ## `instancePut` (instance_put.go, lines 61-186) -/

/-- The loop of lines 128-135: convert each resolved profile and append it to `apiProfiles`. -/
def instancePut.toAPILoop {W : Type} (env : Env W) :
    List Profile → List APIProfile → St W → Option Error × List APIProfile × St W
  | [], apiProfiles, st => (none, apiProfiles, st)
  | profile :: rest, apiProfiles, st =>
    match env.ToAPI profile st.world with
    | (.error err, w1) => (some err, apiProfiles, st.log w1 (.ToAPI profile))
    | (.ok apiProfile, w1) =>
      instancePut.toAPILoop env rest (apiProfiles ++ [apiProfile]) (st.log w1 (.ToAPI profile))

/-- The work function given to the transaction (lines 122-138). It appends to the variable
`apiProfiles` of the enclosing function. -/
def instancePut.work {W : Type} (env : Env W) (projectName name : String)
    (configRaw : InstancePut) (inst : Instance) :
    List APIProfile → St W → Option Error × List APIProfile × St W :=
  fun apiProfiles st =>
    match env.GetProfilesIfEnabled projectName configRaw.Profiles st.world with
    | (.error err, w1) =>
      (some err, apiProfiles, st.log w1 (.GetProfilesIfEnabled projectName configRaw.Profiles))
    | (.ok profiles, w1) =>
      match instancePut.toAPILoop env profiles apiProfiles
          (st.log w1 (.GetProfilesIfEnabled projectName configRaw.Profiles)) with
      | (some err, apiProfiles1, st1) => (some err, apiProfiles1, st1)
      | (none, apiProfiles1, st1) =>
        match env.AllowInstanceUpdate projectName name configRaw inst.LocalConfig st1.world with
        | (r, w2) => (r, apiProfiles1, st1.log w2 (.AllowInstanceUpdate projectName name))

/-- The closure `do` of the plain-update path (lines 144-161). -/
def instancePut.doUpdate {W : Type} (env : Env W) (inst : Instance) (architecture : Int)
    (configRaw : InstancePut) (apiProfiles : List APIProfile) (projectName : String) : Run W :=
  fun st =>
    let args : InstanceArgs :=
      { Architecture := architecture
        Config := configRaw.Config
        Description := configRaw.Description
        Devices := env.NewDevices configRaw.Devices
        Ephemeral := configRaw.Ephemeral
        Profiles := apiProfiles
        Project := projectName }
    match env.Update inst args true st.world with
    | (some err, w1) => (some err, st.log w1 (.Update inst args true))
    | (none, w1) => (none, st.log w1 (.Update inst args true))

/-- The closure `do` of the restore path (lines 166-168). -/
def instancePut.doRestore {W : Type} (env : Env W) (projectName name : String)
    (configRaw : InstancePut) : Run W :=
  fun st => instanceSnapRestore env projectName name configRaw.Restore configRaw.Stateful st

/-- The resource map of lines 173-178. -/
def instancePut.resources {W : Type} (env : Env W) (name : String) (inst : Instance) : Resources :=
  let resources : Resources := []
  let resources := GoMap.set resources "instances" [URL.mk [env.APIVersion, "instances", name]]
  if inst.type = InstanceType.Container then
    match GoMap.get resources "instances" with
    | some urls => GoMap.set resources "containers" urls
    | none => GoMap.set resources "containers" []
  else
    resources

/-- The tuple of line 100: the fields of the instance that the ETag covers. -/
def etagOf (inst : Instance) : Etag :=
  ⟨inst.Architecture, inst.LocalConfig, inst.LocalDevices, inst.IsEphemeral, inst.Profiles⟩

/-- The architecture code of lines 112-115: a string that `ArchitectureId` rejects gives 0. -/
def architectureOf {W : Type} (env : Env W) (configRaw : InstancePut) : Int :=
  match env.ArchitectureId configRaw.Architecture with
  | .error _ => 0
  | .ok a => a

/-- Lines 61-186. The readiness wait of line 63 (`<-d.waitReady.Done()`) only delays the handler
and is not represented. -/
def instancePut {W : Type} (env : Env W) (r : Request) (st : St W) : Response W × St W :=
  match env.urlInstanceTypeDetect r with
  | .error err => (.SmartError err, st)
  | .ok instanceType =>
  let projectName := env.projectParam r
  -- Get the container
  match env.PathUnescape r.nameVar with
  | .error err => (.SmartError err, st)
  | .ok name =>
  if env.IsSnapshot name then
    (.BadRequest (fmt.Errorf "Invalid instance name"), st)
  else
  -- Handle requests targeted to a container on a different node
  match env.forwardedResponseIfInstanceIsRemote r projectName name instanceType st.world with
  | (.error err, w1) =>
    (.SmartError err, st.log w1 (.forwardedResponseIfInstanceIsRemote projectName name))
  | (.ok (some resp), w1) =>
    (.Forwarded resp, st.log w1 (.forwardedResponseIfInstanceIsRemote projectName name))
  | (.ok none, w1) =>
  let st1 := st.log w1 (.forwardedResponseIfInstanceIsRemote projectName name)
  match env.LoadByProjectAndName projectName name st1.world with
  | (.error err, w2) => (.SmartError err, st1.log w2 (.LoadByProjectAndName projectName name))
  | (.ok inst, w2) =>
  let st2 := st1.log w2 (.LoadByProjectAndName projectName name)
  -- Validate the ETag
  let etag := etagOf inst
  match env.EtagCheck r etag with
  | some err => (.PreconditionFailed err, st2)
  | none =>
  match env.Decode r.body with
  | .error err => (.BadRequest err, st2.log st2.world .Decode)
  | .ok configRaw =>
  let st3 := st2.log st2.world .Decode
  let architecture := architectureOf env configRaw
  -- lines 117-171: either an early return, or the closure `do`, `opType` and the state reached
  let mode : Except (Response W × St W) (Run W × OperationType × St W) :=
    if configRaw.Restore = "" then
      -- Check project limits.
      match Transaction (instancePut.work env projectName name configRaw inst)
          env.commitRefusals [] st3 with
      | (some err, _, st4) => .error (.SmartError err, st4)
      | (none, apiProfiles, st4) =>
        -- Update container configuration
        .ok (instancePut.doUpdate env inst architecture configRaw apiProfiles projectName,
          OperationType.InstanceUpdate, st4)
    else
      -- Snapshot Restore
      .ok (instancePut.doRestore env projectName name configRaw,
        OperationType.SnapshotRestore, st3)
  match mode with
  | .error early => early
  | .ok (run, opType, st4) =>
  let resources := instancePut.resources env name inst
  match env.OperationCreate projectName .OperationClassTask opType resources st4.world with
  | (some err, w5) =>
    (.InternalError err,
      st4.log w5 (.OperationCreate projectName .OperationClassTask opType resources))
  | (none, w5) =>
    (.OperationResponse
        ⟨projectName, .OperationClassTask, opType, resources, none, some run, none, none⟩,
      st4.log w5 (.OperationCreate projectName .OperationClassTask opType resources))

/-! ## An environment for evaluation -/

/-- The instance of the given name in the demo environment: a container carrying generation
`g0`. -/
def demoInstance (name : String) : Instance :=
  ⟨"default", name, 2, [("volatile.uuid.generation", "g0"), ("limits.cpu", "1")], ⟨[]⟩, false, [],
    .Container⟩

/-- The decoded body of the demo update request. -/
def demoUpdate : InstancePut :=
  ⟨"x86_64", [("limits.cpu", "2")], [], false, ["default", "web"], "", false, "d"⟩

/-- A small environment for evaluating the definitions: snapshot names contain "/", there is one
instance, `web` (a container in project `default`), with the snapshot `web/snap0`, profile names
other than `missing` resolve to rows that convert to empty projections, only the architecture
`x86_64` is known, and every other call succeeds. The world is a counter of calls made. -/
def demoEnv : Env Nat where
  APIVersion := "1.0"
  SnapshotDelimiter := "/"
  IsSnapshot := fun s => s.toList.contains '/'
  IsNotFoundError := fun err => err.status = some 404
  urlInstanceTypeDetect := fun _ => .ok .Any
  projectParam := fun _ => "default"
  PathUnescape := fun s => .ok s
  forwardedResponseIfInstanceIsRemote := fun _ _ _ _ w => (.ok none, w + 1)
  LoadByProjectAndName := fun _ name w =>
    if name = "web" ∨ name = "web/snap0" then (.ok (demoInstance name), w + 1)
    else (.error ⟨"Instance not found", some 404⟩, w + 1)
  EtagCheck := fun r _ =>
    match r.ifMatch with
    | none => none
    | some t => if t = "current" then none else some ⟨"ETag mismatch", some 412⟩
  Decode := fun body =>
    if body = "restore" then .ok ⟨"", [], [], false, [], "snap0", false, ""⟩
    else if body = "update" then .ok demoUpdate
    else if body = "update-mips" then .ok { demoUpdate with Architecture := "mips" }
    else if body = "update-missing" then
      .ok ⟨"mips", [], [], false, ["default", "missing"], "", false, ""⟩
    else .error ⟨"invalid character", none⟩
  ArchitectureId := fun s => if s = "x86_64" then .ok 2 else .error ⟨"unknown architecture", none⟩
  commitRefusals := 0
  GetProfilesIfEnabled := fun _ names w =>
    if "missing" ∈ names then (.error ⟨"Profile not found", some 404⟩, w + 1)
    else (.ok (names.map (fun n => ⟨n.length, n⟩)), w + 1)
  ToAPI := fun p w => (.ok ⟨p.name, "", [], []⟩, w + 1)
  AllowInstanceUpdate := fun _ _ _ _ w => (none, w + 1)
  NewDevices := fun m => ⟨m⟩
  OperationCreate := fun _ _ _ _ w => (none, w + 1)
  Update := fun _ _ _ w => (none, w + 1)
  Restore := fun _ _ _ w => (none, w + 1)
  uuidNew := fun w => ("uuid-" ++ toString w, w + 1)

/-- The demo environment in which the profile row `web` does not convert. -/
def demoEnvNoConversion : Env Nat :=
  { demoEnv with
    ToAPI := fun p w =>
      if p.name = "web" then (.error ⟨"Profile row is gone", none⟩, w + 1)
      else (.ok ⟨p.name, "", [], []⟩, w + 1) }

/-- The demo environment in which the project limits refuse every update. -/
def demoEnvOverLimit : Env Nat :=
  { demoEnv with
    AllowInstanceUpdate := fun _ _ _ _ w =>
      (some ⟨"Reached maximum number of instances", some 403⟩, w + 1) }

/-- The request `PUT /1.0/instances/web` with the given body and no ETag. -/
def demoRequest (body : String) : Request := ⟨"/1.0/instances/web", "web", none, body⟩

/-- The arguments the demo update must hand to `Update`, for a given profile list. -/
def demoArgs (profiles : List APIProfile) : InstanceArgs :=
  ⟨2, [("limits.cpu", "2")], "d", ⟨[]⟩, false, profiles, "default"⟩

/-! ## Vocabulary of the statements -/

/-- The request `r` passes lines 61-97: the instance type, project and name are decoded, the
name is not a snapshot name, the instance is local, and it loads as `inst`. -/
structure Loaded {W : Type} (env : Env W) (r : Request) (st : St W)
    (instanceType : InstanceType) (projectName name : String) (inst : Instance) (w1 w2 : W) :
    Prop where
  detect : env.urlInstanceTypeDetect r = .ok instanceType
  project : env.projectParam r = projectName
  unescape : env.PathUnescape r.nameVar = .ok name
  notSnapshot : env.IsSnapshot name = false
  notRemote : env.forwardedResponseIfInstanceIsRemote r projectName name instanceType st.world
    = (.ok none, w1)
  load : env.LoadByProjectAndName projectName name w1 = (.ok inst, w2)

/-- The state right after the instance is loaded (line 97). -/
def afterLoad {W : Type} (st : St W) (projectName name : String) (w2 : W) : St W :=
  ⟨w2, st.trace ++ [Event.forwardedResponseIfInstanceIsRemote projectName name,
    Event.LoadByProjectAndName projectName name]⟩

/-- The state right after the body is decoded (line 110). -/
def afterDecode {W : Type} (st : St W) (projectName name : String) (w2 : W) : St W :=
  ⟨w2, st.trace ++ [Event.forwardedResponseIfInstanceIsRemote projectName name,
    Event.LoadByProjectAndName projectName name, Event.Decode]⟩

/-- Calls that create an operation or mutate an instance. -/
def Event.isMutation : Event → Bool
  | .OperationCreate _ _ _ _ => true
  | .Update _ _ _ => true
  | .Restore _ _ _ => true
  | _ => false

/-- The state in which the gateway starts run number `i` (counted from 0) of `work`: every
earlier run succeeded and its commit was refused. -/
def Transaction.runState {W κ : Type} (work : κ → St W → Option Error × κ × St W) :
    Nat → κ → St W → Option (κ × St W)
  | 0, k, st => some (k, st.log st.world .TransactionBegin)
  | i + 1, k, st =>
    match work k (st.log st.world .TransactionBegin) with
    | (some _, _, _) => none
    | (none, k1, st1) => Transaction.runState work i k1 (st1.log st1.world .TransactionRerun)

/-- The calls `ToAPI` made in turn on `profiles` from the world `w`, when each of them succeeds:
the projections in order and the world left. -/
def toAPIAll {W : Type} (env : Env W) : List Profile → W → Option (List APIProfile × W)
  | [], w => some ([], w)
  | profile :: rest, w =>
    match env.ToAPI profile w with
    | (.error _, _) => none
    | (.ok apiProfile, w1) =>
      match toAPIAll env rest w1 with
      | none => none
      | some (projections, w2) => some (apiProfile :: projections, w2)

/-! # Theorems -/

/-! ## Map lemmas -/

theorem GoMap.get_set_self {V : Type} (m : GoMap V) (k : String) (v : V) :
    GoMap.get (GoMap.set m k v) k = some v := by
  induction m with
  | nil => simp [GoMap.set, GoMap.get]
  | cons hd tl ih =>
    obtain ⟨k1, v1⟩ := hd
    by_cases h : k1 = k
    · simp [GoMap.set, GoMap.get, h]
    · simp [GoMap.set, GoMap.get, h, ih]

theorem GoMap.get_set_other {V : Type} (m : GoMap V) (k k2 : String) (v : V) (hne : k2 ≠ k) :
    GoMap.get (GoMap.set m k v) k2 = GoMap.get m k2 := by
  induction m with
  | nil => simp [GoMap.set, GoMap.get, Ne.symm hne]
  | cons hd tl ih =>
    obtain ⟨k1, v1⟩ := hd
    by_cases h : k1 = k
    · subst h
      simp [GoMap.set, GoMap.get, Ne.symm hne]
    · by_cases h2 : k1 = k2
      · subst h2
        simp [GoMap.set, GoMap.get, h]
      · simp [GoMap.set, GoMap.get, h, h2, ih]

/-! ## `instanceSnapRestore` -/

/-- When the snapshot lookup fails, the function stops after the two lookups. -/
theorem instanceSnapRestore_of_lookup_error {W : Type} (env : Env W)
    (projectName name snap : String) (stateful : Bool) (st : St W) (inst : Instance) (w1 w2 : W)
    (err : Error)
    (hinst : env.LoadByProjectAndName projectName name st.world = (.ok inst, w1))
    (hsnap : env.LoadByProjectAndName projectName
      (if env.IsSnapshot snap then snap else name ++ env.SnapshotDelimiter ++ snap) w1
        = (.error err, w2)) :
    instanceSnapRestore env projectName name snap stateful st =
      (some (if env.IsNotFoundError err then
          fmt.Errorf ("Snapshot " ++
            (if env.IsSnapshot snap then snap else name ++ env.SnapshotDelimiter ++ snap) ++
            " does not exist")
        else err),
        ⟨w2, st.trace ++ [Event.LoadByProjectAndName projectName name,
          Event.LoadByProjectAndName projectName
            (if env.IsSnapshot snap then snap else name ++ env.SnapshotDelimiter ++ snap)]⟩) := by
  cases hs : env.IsSnapshot snap
    <;> simp only [hs, if_true, if_false, Bool.false_eq_true] at hsnap ⊢
    <;> cases hnf : env.IsNotFoundError err
    <;> simp [instanceSnapRestore, hinst, hs, hsnap, hnf, St.log]

/-- When both lookups succeed, the function stamps the source and calls `Restore` on it. -/
theorem instanceSnapRestore_of_lookup_ok {W : Type} (env : Env W)
    (projectName name snap : String) (stateful : Bool) (st : St W) (inst source : Instance)
    (w1 w2 w3 : W) (u : String)
    (hinst : env.LoadByProjectAndName projectName name st.world = (.ok inst, w1))
    (hsnap : env.LoadByProjectAndName projectName
      (if env.IsSnapshot snap then snap else name ++ env.SnapshotDelimiter ++ snap) w1
        = (.ok source, w2))
    (huuid : env.uuidNew w2 = (u, w3)) :
    instanceSnapRestore env projectName name snap stateful st =
      ((env.Restore inst
          { source with
            LocalConfig := GoMap.set source.LocalConfig "volatile.uuid.generation" u }
          stateful w3).1,
        ⟨(env.Restore inst
          { source with
            LocalConfig := GoMap.set source.LocalConfig "volatile.uuid.generation" u }
          stateful w3).2,
          st.trace ++ [Event.LoadByProjectAndName projectName name,
            Event.LoadByProjectAndName projectName
              (if env.IsSnapshot snap then snap else name ++ env.SnapshotDelimiter ++ snap),
            Event.uuidNew u,
            Event.Restore inst
              { source with
                LocalConfig := GoMap.set source.LocalConfig "volatile.uuid.generation" u }
              stateful]⟩) := by
  cases hs : env.IsSnapshot snap
    <;> simp only [hs, if_true, if_false, Bool.false_eq_true] at hsnap ⊢
    <;> simp only [instanceSnapRestore, hinst, hs, hsnap, huuid, St.log, Bool.not_false,
      Bool.not_true, if_true, if_false, Bool.false_eq_true]
    <;> split <;> simp_all

/-- C4. Once the instance is loaded, the second lookup of `instanceSnapRestore` is made under the
normalized name: `name ++ SnapshotDelimiter ++ snap` when `IsSnapshot snap` is false, and `snap`
unchanged when `IsSnapshot snap` is true. -/
theorem instanceSnapRestore_lookup_name {W : Type} (env : Env W) (projectName name snap : String)
    (stateful : Bool) (st : St W) (inst : Instance) (w1 : W)
    (hinst : env.LoadByProjectAndName projectName name st.world = (.ok inst, w1)) :
    (env.IsSnapshot snap = false →
      ∃ rest, (instanceSnapRestore env projectName name snap stateful st).2.trace =
        st.trace ++ [Event.LoadByProjectAndName projectName name,
          Event.LoadByProjectAndName projectName (name ++ env.SnapshotDelimiter ++ snap)] ++ rest) ∧
    (env.IsSnapshot snap = true →
      ∃ rest, (instanceSnapRestore env projectName name snap stateful st).2.trace =
        st.trace ++ [Event.LoadByProjectAndName projectName name,
          Event.LoadByProjectAndName projectName snap] ++ rest) := by
  rcases hsnap : env.LoadByProjectAndName projectName
      (if env.IsSnapshot snap then snap else name ++ env.SnapshotDelimiter ++ snap) w1
    with ⟨res, w2⟩
  rcases hu : env.uuidNew w2 with ⟨u, w3⟩
  cases res with
  | error err =>
    rw [instanceSnapRestore_of_lookup_error env projectName name snap stateful st inst w1 w2 err
      hinst hsnap]
    constructor <;> intro hs <;> exact ⟨[], by simp [hs]⟩
  | ok source =>
    rw [instanceSnapRestore_of_lookup_ok env projectName name snap stateful st inst source
      w1 w2 w3 u hinst hsnap hu]
    constructor <;> intro hs <;> exact ⟨_, by simp [hs]; rfl⟩

/-- C4, evaluated: for instance `web` and restore value `snap1` the lookup name is `web/snap1`. -/
theorem instanceSnapRestore_lookup_name_witness :
    demoEnv.LoadByProjectAndName "default" "web" 0 = (.ok (demoInstance "web"), 1) ∧
    demoEnv.IsSnapshot "snap1" = false ∧
    ∃ rest, (instanceSnapRestore demoEnv "default" "web" "snap1" false ⟨0, []⟩).2.trace =
        [] ++ [Event.LoadByProjectAndName "default" "web",
          Event.LoadByProjectAndName "default" "web/snap1"] ++ rest :=
  ⟨rfl, rfl,
    (instanceSnapRestore_lookup_name demoEnv "default" "web" "snap1" false ⟨0, []⟩
      (demoInstance "web") 1 rfl).1 rfl⟩

/-- C6. When the instance and the snapshot load and the generator returns `u`, `Restore` is called
(after the generator, as the last call) on the source whose local configuration has
`volatile.uuid.generation` set to `u` and every other key unchanged, all other fields being those
of the loaded source; the function returns what `Restore` returns. If `u` is not the value the
source carried before, the value handed to `Restore` differs from it. -/
theorem instanceSnapRestore_stamps_generation {W : Type} (env : Env W)
    (projectName name snap : String) (stateful : Bool) (st : St W) (inst source : Instance)
    (w1 w2 w3 : W) (u : String)
    (hinst : env.LoadByProjectAndName projectName name st.world = (.ok inst, w1))
    (hsnap : env.LoadByProjectAndName projectName
      (if env.IsSnapshot snap then snap else name ++ env.SnapshotDelimiter ++ snap) w1
        = (.ok source, w2))
    (huuid : env.uuidNew w2 = (u, w3)) :
    ∃ stamped : Instance,
      instanceSnapRestore env projectName name snap stateful st =
        ((env.Restore inst stamped stateful w3).1,
          ⟨(env.Restore inst stamped stateful w3).2,
            st.trace ++ [Event.LoadByProjectAndName projectName name,
              Event.LoadByProjectAndName projectName
                (if env.IsSnapshot snap then snap else name ++ env.SnapshotDelimiter ++ snap),
              Event.uuidNew u,
              Event.Restore inst stamped stateful]⟩) ∧
      GoMap.get stamped.LocalConfig "volatile.uuid.generation" = some u ∧
      (∀ k, k ≠ "volatile.uuid.generation" →
        GoMap.get stamped.LocalConfig k = GoMap.get source.LocalConfig k) ∧
      stamped = { source with LocalConfig := stamped.LocalConfig } ∧
      (GoMap.get source.LocalConfig "volatile.uuid.generation" ≠ some u →
        GoMap.get stamped.LocalConfig "volatile.uuid.generation" ≠
          GoMap.get source.LocalConfig "volatile.uuid.generation") := by
  refine ⟨{ source with
      LocalConfig := GoMap.set source.LocalConfig "volatile.uuid.generation" u }, ?_, ?_, ?_, ?_, ?_⟩
  · exact instanceSnapRestore_of_lookup_ok env projectName name snap stateful st inst source
      w1 w2 w3 u hinst hsnap huuid
  · exact GoMap.get_set_self _ _ _
  · intro k hk
    exact GoMap.get_set_other _ _ _ _ hk
  · rfl
  · intro hne
    rw [GoMap.get_set_self]
    exact fun h => hne h.symm

/-- C6, evaluated: restoring `web` from `snap0`, whose source carries generation `g0`, hands
`Restore` a source stamped with the generated value `uuid-2`. -/
theorem instanceSnapRestore_stamps_generation_witness :
    demoEnv.LoadByProjectAndName "default" "web" 0 = (.ok (demoInstance "web"), 1) ∧
    demoEnv.LoadByProjectAndName "default" "web/snap0" 1 = (.ok (demoInstance "web/snap0"), 2) ∧
    demoEnv.uuidNew 2 = ("uuid-2", 3) ∧
    GoMap.get (demoInstance "web/snap0").LocalConfig "volatile.uuid.generation" = some "g0" ∧
    ∃ stamped : Instance,
      (instanceSnapRestore demoEnv "default" "web" "snap0" false ⟨0, []⟩).2.trace =
        [Event.LoadByProjectAndName "default" "web",
          Event.LoadByProjectAndName "default" "web/snap0",
          Event.uuidNew "uuid-2",
          Event.Restore (demoInstance "web") stamped false] ∧
      GoMap.get stamped.LocalConfig "volatile.uuid.generation" = some "uuid-2" :=
  ⟨rfl, rfl, rfl, rfl,
    (instanceSnapRestore_stamps_generation demoEnv "default" "web" "snap0" false ⟨0, []⟩
      (demoInstance "web") (demoInstance "web/snap0") 1 2 3 "uuid-2" rfl rfl rfl).imp
      (fun _ h => ⟨by rw [h.1]; rfl, h.2.1⟩)⟩

/-! ## `instancePut`: the paths through the handler -/

theorem instancePut_etag_fails {W : Type} (env : Env W) (r : Request) (st : St W)
    (instanceType : InstanceType) (projectName name : String) (inst : Instance) (w1 w2 : W)
    (err : Error)
    (hl : Loaded env r st instanceType projectName name inst w1 w2)
    (hetag : env.EtagCheck r (etagOf inst) = some err) :
    instancePut env r st = (.PreconditionFailed err, afterLoad st projectName name w2) := by
  simp [instancePut, hl.detect, hl.project, hl.unescape, hl.notSnapshot, hl.notRemote, hl.load,
    hetag, St.log, afterLoad]

theorem instancePut_decode_fails {W : Type} (env : Env W) (r : Request) (st : St W)
    (instanceType : InstanceType) (projectName name : String) (inst : Instance) (w1 w2 : W)
    (err : Error)
    (hl : Loaded env r st instanceType projectName name inst w1 w2)
    (hetag : env.EtagCheck r (etagOf inst) = none)
    (hdec : env.Decode r.body = .error err) :
    instancePut env r st = (.BadRequest err, afterDecode st projectName name w2) := by
  simp [instancePut, hl.detect, hl.project, hl.unescape, hl.notSnapshot, hl.notRemote, hl.load,
    hetag, hdec, St.log, afterDecode]

theorem instancePut_transaction_fails {W : Type} (env : Env W) (r : Request) (st : St W)
    (instanceType : InstanceType) (projectName name : String) (inst : Instance) (w1 w2 : W)
    (configRaw : InstancePut) (err : Error) (apiProfiles : List APIProfile) (st4 : St W)
    (hl : Loaded env r st instanceType projectName name inst w1 w2)
    (hetag : env.EtagCheck r (etagOf inst) = none)
    (hdec : env.Decode r.body = .ok configRaw)
    (hrestore : configRaw.Restore = "")
    (htx : Transaction (instancePut.work env projectName name configRaw inst)
      env.commitRefusals [] (afterDecode st projectName name w2) = (some err, apiProfiles, st4)) :
    instancePut env r st = (.SmartError err, st4) := by
  simp only [afterDecode] at htx
  simp [instancePut, hl.detect, hl.project, hl.unescape, hl.notSnapshot, hl.notRemote, hl.load,
    hetag, hdec, hrestore, St.log, htx]

theorem instancePut_update_path {W : Type} (env : Env W) (r : Request) (st : St W)
    (instanceType : InstanceType) (projectName name : String) (inst : Instance) (w1 w2 : W)
    (configRaw : InstancePut) (apiProfiles : List APIProfile) (st4 : St W)
    (hl : Loaded env r st instanceType projectName name inst w1 w2)
    (hetag : env.EtagCheck r (etagOf inst) = none)
    (hdec : env.Decode r.body = .ok configRaw)
    (hrestore : configRaw.Restore = "")
    (htx : Transaction (instancePut.work env projectName name configRaw inst)
      env.commitRefusals [] (afterDecode st projectName name w2) = (none, apiProfiles, st4)) :
    instancePut env r st =
      match env.OperationCreate projectName .OperationClassTask .InstanceUpdate
          (instancePut.resources env name inst) st4.world with
      | (some err, w5) =>
        (.InternalError err, st4.log w5 (.OperationCreate projectName .OperationClassTask
          .InstanceUpdate (instancePut.resources env name inst)))
      | (none, w5) =>
        (.OperationResponse ⟨projectName, .OperationClassTask, .InstanceUpdate,
            instancePut.resources env name inst, none,
            some (instancePut.doUpdate env inst (architectureOf env configRaw) configRaw
              apiProfiles projectName), none, none⟩,
          st4.log w5 (.OperationCreate projectName .OperationClassTask
            .InstanceUpdate (instancePut.resources env name inst))) := by
  simp only [afterDecode] at htx
  simp [instancePut, hl.detect, hl.project, hl.unescape, hl.notSnapshot, hl.notRemote, hl.load,
    hetag, hdec, hrestore, St.log, htx, architectureOf]

theorem instancePut_restore_path {W : Type} (env : Env W) (r : Request) (st : St W)
    (instanceType : InstanceType) (projectName name : String) (inst : Instance) (w1 w2 : W)
    (configRaw : InstancePut)
    (hl : Loaded env r st instanceType projectName name inst w1 w2)
    (hetag : env.EtagCheck r (etagOf inst) = none)
    (hdec : env.Decode r.body = .ok configRaw)
    (hrestore : configRaw.Restore ≠ "") :
    instancePut env r st =
      match env.OperationCreate projectName .OperationClassTask .SnapshotRestore
          (instancePut.resources env name inst) w2 with
      | (some err, w5) =>
        (.InternalError err, (afterDecode st projectName name w2).log w5
          (.OperationCreate projectName .OperationClassTask
            .SnapshotRestore (instancePut.resources env name inst)))
      | (none, w5) =>
        (.OperationResponse ⟨projectName, .OperationClassTask, .SnapshotRestore,
            instancePut.resources env name inst, none,
            some (instancePut.doRestore env projectName name configRaw), none, none⟩,
          (afterDecode st projectName name w2).log w5
            (.OperationCreate projectName .OperationClassTask
              .SnapshotRestore (instancePut.resources env name inst))) := by
  simp [instancePut, hl.detect, hl.project, hl.unescape, hl.notSnapshot, hl.notRemote, hl.load,
    hetag, hdec, hrestore, St.log, afterDecode]

/-! ## The policy transaction -/

theorem instancePut.toAPILoop_trace {W : Type} (env : Env W) (profiles : List Profile) :
    ∀ (apiProfiles : List APIProfile) (st : St W),
      ∃ evs, (instancePut.toAPILoop env profiles apiProfiles st).2.2.trace = st.trace ++ evs ∧
        ∀ e ∈ evs, e.isMutation = false := by
  induction profiles with
  | nil => intro apiProfiles st; exact ⟨[], by simp [instancePut.toAPILoop]⟩
  | cons profile rest ih =>
    intro apiProfiles st
    rcases h : env.ToAPI profile st.world with ⟨res, w1⟩
    cases res with
    | error err =>
      exact ⟨[.ToAPI profile], by simp [instancePut.toAPILoop, h, St.log, Event.isMutation]⟩
    | ok apiProfile =>
      obtain ⟨evs, h1, h2⟩ := ih (apiProfiles ++ [apiProfile]) (st.log w1 (.ToAPI profile))
      refine ⟨.ToAPI profile :: evs, ?_, ?_⟩
      · simp only [instancePut.toAPILoop, h, h1]
        simp [St.log]
      · intro e he
        rcases List.mem_cons.mp he with rfl | he
        · rfl
        · exact h2 e he

theorem instancePut.work_trace {W : Type} (env : Env W) (projectName name : String)
    (configRaw : InstancePut) (inst : Instance) (apiProfiles : List APIProfile) (st : St W) :
    ∃ evs, (instancePut.work env projectName name configRaw inst apiProfiles st).2.2.trace
        = st.trace ++ evs ∧ ∀ e ∈ evs, e.isMutation = false := by
  rcases h : env.GetProfilesIfEnabled projectName configRaw.Profiles st.world with ⟨res, w1⟩
  cases res with
  | error err =>
    exact ⟨[.GetProfilesIfEnabled projectName configRaw.Profiles],
      by simp [instancePut.work, h, St.log, Event.isMutation]⟩
  | ok profiles =>
    obtain ⟨evs, h1, h2⟩ := instancePut.toAPILoop_trace env profiles apiProfiles
      (st.log w1 (.GetProfilesIfEnabled projectName configRaw.Profiles))
    simp only [St.log] at h1
    rcases hloop : instancePut.toAPILoop env profiles apiProfiles
      ⟨w1, st.trace ++ [.GetProfilesIfEnabled projectName configRaw.Profiles]⟩
      with ⟨res, apis1, st1⟩
    rw [hloop] at h1
    simp only at h1
    cases res with
    | some err =>
      refine ⟨.GetProfilesIfEnabled projectName configRaw.Profiles :: evs, ?_, ?_⟩
      · simp [instancePut.work, h, hloop, h1, St.log]
      · intro e he
        rcases List.mem_cons.mp he with rfl | he
        · rfl
        · exact h2 e he
    | none =>
      refine ⟨.GetProfilesIfEnabled projectName configRaw.Profiles :: evs ++
        [.AllowInstanceUpdate projectName name], ?_, ?_⟩
      · simp [instancePut.work, h, hloop, h1, St.log]
      · intro e he
        rcases List.mem_append.mp he with he | he
        · rcases List.mem_cons.mp he with rfl | he
          · rfl
          · exact h2 e he
        · rw [List.mem_singleton.mp he]; rfl

/-- The gateway adds only its own events to those of the work function. -/
theorem Transaction_trace {W κ : Type} (work : κ → St W → Option Error × κ × St W)
    (hwork : ∀ k st, ∃ evs, (work k st).2.2.trace = st.trace ++ evs ∧
      ∀ e ∈ evs, e.isMutation = false) (refusals : Nat) :
    ∀ (k : κ) (st : St W),
      ∃ evs, (Transaction work refusals k st).2.2.trace
          = st.trace ++ Event.TransactionBegin :: evs ∧
        ∀ e ∈ evs, e.isMutation = false := by
  induction refusals with
  | zero =>
    intro k st
    obtain ⟨evs, h1, h2⟩ := hwork k (st.log st.world .TransactionBegin)
    simp only [St.log] at h1
    rcases hw : work k ⟨st.world, st.trace ++ [.TransactionBegin]⟩ with ⟨res, k1, st1⟩
    rw [hw] at h1
    simp only at h1
    cases res with
    | some err =>
      refine ⟨evs ++ [.TransactionRollback], ?_, ?_⟩
      · simp [Transaction, hw, St.log, h1]
      · intro e he
        rcases List.mem_append.mp he with he | he
        · exact h2 e he
        · rw [List.mem_singleton.mp he]; rfl
    | none =>
      refine ⟨evs ++ [.TransactionCommit], ?_, ?_⟩
      · simp [Transaction, hw, St.log, h1]
      · intro e he
        rcases List.mem_append.mp he with he | he
        · exact h2 e he
        · rw [List.mem_singleton.mp he]; rfl
  | succ n ih =>
    intro k st
    obtain ⟨evs, h1, h2⟩ := hwork k (st.log st.world .TransactionBegin)
    simp only [St.log] at h1
    rcases hw : work k ⟨st.world, st.trace ++ [.TransactionBegin]⟩ with ⟨res, k1, st1⟩
    rw [hw] at h1
    simp only at h1
    cases res with
    | some err =>
      refine ⟨evs ++ [.TransactionRollback], ?_, ?_⟩
      · simp [Transaction, hw, St.log, h1]
      · intro e he
        rcases List.mem_append.mp he with he | he
        · exact h2 e he
        · rw [List.mem_singleton.mp he]; rfl
    | none =>
      obtain ⟨evs2, h3, h4⟩ := ih k1 (st1.log st1.world .TransactionRerun)
      simp only [St.log] at h3
      refine ⟨evs ++ .TransactionRerun :: .TransactionBegin :: evs2, ?_, ?_⟩
      · simp only [Transaction, St.log, hw, h3]
        simp [h1]
      · intro e he
        simp only [List.mem_append, List.mem_cons] at he
        rcases he with he | rfl | rfl | he
        · exact h2 e he
        · rfl
        · rfl
        · exact h4 e he

/-- A failing run of the work function ends the transaction with the error of that run. -/
theorem Transaction_of_run_fails {W κ : Type} (work : κ → St W → Option Error × κ × St W)
    (i : Nat) :
    ∀ (refusals : Nat) (k ki k1 : κ) (st sti st1 : St W) (err : Error),
      i ≤ refusals → Transaction.runState work i k st = some (ki, sti) →
      work ki sti = (some err, k1, st1) →
      Transaction work refusals k st = (some err, k1, st1.log st1.world .TransactionRollback) := by
  induction i with
  | zero =>
    intro refusals k ki k1 st sti st1 err _ hrun hw
    simp only [Transaction.runState, Option.some.injEq, Prod.mk.injEq] at hrun
    obtain ⟨rfl, rfl⟩ := hrun
    cases refusals <;> simp [Transaction, hw]
  | succ i ih =>
    intro refusals k ki k1 st sti st1 err hle hrun hw
    cases refusals with
    | zero => omega
    | succ n =>
      rcases hfirst : work k (st.log st.world .TransactionBegin) with ⟨res, k2, st2⟩
      cases res with
      | some e => simp [Transaction.runState, hfirst] at hrun
      | none =>
        simp only [Transaction.runState, hfirst] at hrun
        simp only [Transaction, hfirst]
        exact ih n k2 ki k1 _ sti st1 err (by omega) hrun hw

/-- An error of the work function is the error that one of its three steps returned. -/
theorem instancePut.work_error_origin {W : Type} (env : Env W) (projectName name : String)
    (configRaw : InstancePut) (inst : Instance) (apiProfiles apiProfiles1 : List APIProfile)
    (st st1 : St W) (err : Error)
    (h : instancePut.work env projectName name configRaw inst apiProfiles st
      = (some err, apiProfiles1, st1)) :
    (∃ w, (env.GetProfilesIfEnabled projectName configRaw.Profiles w).1 = .error err) ∨
    (∃ profile w, (env.ToAPI profile w).1 = .error err) ∨
    (∃ w, (env.AllowInstanceUpdate projectName name configRaw inst.LocalConfig w).1
      = some err) := by
  have hloop : ∀ (profiles : List Profile) (apis apis1 : List APIProfile) (s s1 : St W),
      instancePut.toAPILoop env profiles apis s = (some err, apis1, s1) →
      ∃ profile w, (env.ToAPI profile w).1 = .error err := by
    intro profiles
    induction profiles with
    | nil => intro apis apis1 s s1 h0; simp [instancePut.toAPILoop] at h0
    | cons profile rest ih =>
      intro apis apis1 s s1 h0
      rcases hp : env.ToAPI profile s.world with ⟨res, w1⟩
      cases res with
      | error e =>
        simp only [instancePut.toAPILoop, hp, Prod.mk.injEq, Option.some.injEq] at h0
        exact ⟨profile, s.world, by rw [hp, ← h0.1]⟩
      | ok a =>
        simp only [instancePut.toAPILoop, hp] at h0
        exact ih _ _ _ _ h0
  rcases hg : env.GetProfilesIfEnabled projectName configRaw.Profiles st.world with ⟨res, w1⟩
  cases res with
  | error e =>
    simp only [instancePut.work, hg, Prod.mk.injEq, Option.some.injEq] at h
    exact Or.inl ⟨st.world, by rw [hg, ← h.1]⟩
  | ok profiles =>
    rcases hl : instancePut.toAPILoop env profiles apiProfiles
      (st.log w1 (.GetProfilesIfEnabled projectName configRaw.Profiles)) with ⟨res, apis2, st2⟩
    cases res with
    | some e =>
      simp only [instancePut.work, hg, hl, Prod.mk.injEq, Option.some.injEq] at h
      rw [h.1] at hl
      exact Or.inr (Or.inl (hloop _ _ _ _ _ hl))
    | none =>
      simp only [instancePut.work, hg, hl, Prod.mk.injEq] at h
      exact Or.inr (Or.inr ⟨st2.world, h.1⟩)

/-! ## The work function in terms of the calls it makes -/

theorem instancePut.toAPILoop_of_converted {W : Type} (env : Env W) (profiles : List Profile) :
    ∀ (apiProfiles projections : List APIProfile) (st : St W) (w2 : W),
      toAPIAll env profiles st.world = some (projections, w2) →
      instancePut.toAPILoop env profiles apiProfiles st =
        (none, apiProfiles ++ projections, ⟨w2, st.trace ++ profiles.map Event.ToAPI⟩) := by
  induction profiles with
  | nil =>
    intro apiProfiles projections st w2 h
    simp only [toAPIAll, Option.some.injEq, Prod.mk.injEq] at h
    obtain ⟨rfl, rfl⟩ := h
    simp [instancePut.toAPILoop]
  | cons profile rest ih =>
    intro apiProfiles projections st w2 h
    rcases hp : env.ToAPI profile st.world with ⟨res, w1⟩
    cases res with
    | error err => simp [toAPIAll, hp] at h
    | ok a =>
      rcases hr : toAPIAll env rest w1 with _ | ⟨projs, w3⟩
      · simp [toAPIAll, hp, hr] at h
      · simp only [toAPIAll, hp, hr, Option.some.injEq, Prod.mk.injEq] at h
        obtain ⟨rfl, rfl⟩ := h
        simp only [instancePut.toAPILoop, hp]
        rw [ih (apiProfiles ++ [a]) projs (st.log w1 (.ToAPI profile)) w3 hr]
        simp [St.log]

theorem instancePut.toAPILoop_of_ToAPI_error {W : Type} (env : Env W) (pre : List Profile) :
    ∀ (profile : Profile) (post : List Profile) (apiProfiles projections : List APIProfile)
      (st : St W) (w2 w3 : W) (err : Error),
      toAPIAll env pre st.world = some (projections, w2) →
      env.ToAPI profile w2 = (.error err, w3) →
      instancePut.toAPILoop env (pre ++ profile :: post) apiProfiles st =
        (some err, apiProfiles ++ projections,
          ⟨w3, st.trace ++ pre.map Event.ToAPI ++ [Event.ToAPI profile]⟩) := by
  induction pre with
  | nil =>
    intro profile post apiProfiles projections st w2 w3 err h herr
    simp only [toAPIAll, Option.some.injEq, Prod.mk.injEq] at h
    obtain ⟨rfl, rfl⟩ := h
    simp [instancePut.toAPILoop, herr, St.log]
  | cons p rest ih =>
    intro profile post apiProfiles projections st w2 w3 err h herr
    rcases hp : env.ToAPI p st.world with ⟨res, w1⟩
    cases res with
    | error e => simp [toAPIAll, hp] at h
    | ok a =>
      rcases hr : toAPIAll env rest w1 with _ | ⟨projs, w4⟩
      · simp [toAPIAll, hp, hr] at h
      · simp only [toAPIAll, hp, hr, Option.some.injEq, Prod.mk.injEq] at h
        obtain ⟨rfl, rfl⟩ := h
        have hrec := ih profile post (apiProfiles ++ [a]) projs (st.log w1 (.ToAPI p)) w4 w3
          err hr herr
        show instancePut.toAPILoop env (p :: (rest ++ profile :: post)) apiProfiles st = _
        simp only [instancePut.toAPILoop, hp, hrec]
        simp [St.log]

/-- The work function when the resolver fails. -/
theorem instancePut.work_of_GetProfiles_error {W : Type} (env : Env W)
    (projectName name : String) (configRaw : InstancePut) (inst : Instance)
    (apiProfiles : List APIProfile) (st : St W) (err : Error) (w : W)
    (h : env.GetProfilesIfEnabled projectName configRaw.Profiles st.world = (.error err, w)) :
    instancePut.work env projectName name configRaw inst apiProfiles st =
      (some err, apiProfiles,
        ⟨w, st.trace ++ [Event.GetProfilesIfEnabled projectName configRaw.Profiles]⟩) := by
  simp [instancePut.work, h, St.log]

/-- The work function when a conversion fails after the conversions before it succeeded. -/
theorem instancePut.work_of_ToAPI_error {W : Type} (env : Env W)
    (projectName name : String) (configRaw : InstancePut) (inst : Instance)
    (apiProfiles projections : List APIProfile) (st : St W) (pre post : List Profile)
    (profile : Profile) (err : Error) (w1 w2 w3 : W)
    (hget : env.GetProfilesIfEnabled projectName configRaw.Profiles st.world
      = (.ok (pre ++ profile :: post), w1))
    (hpre : toAPIAll env pre w1 = some (projections, w2))
    (herr : env.ToAPI profile w2 = (.error err, w3)) :
    instancePut.work env projectName name configRaw inst apiProfiles st =
      (some err, apiProfiles ++ projections,
        ⟨w3, st.trace ++ [Event.GetProfilesIfEnabled projectName configRaw.Profiles] ++
          pre.map Event.ToAPI ++ [Event.ToAPI profile]⟩) := by
  simp only [instancePut.work, hget]
  rw [instancePut.toAPILoop_of_ToAPI_error env pre profile post apiProfiles projections
    (st.log w1 (.GetProfilesIfEnabled projectName configRaw.Profiles)) w2 w3 err hpre herr]
  simp [St.log]

/-- The work function when the profiles resolve and convert: it ends with the limit check and
returns its verdict. -/
theorem instancePut.work_of_resolved {W : Type} (env : Env W)
    (projectName name : String) (configRaw : InstancePut) (inst : Instance)
    (apiProfiles projections : List APIProfile) (st : St W) (profiles : List Profile)
    (w1 w2 : W)
    (hget : env.GetProfilesIfEnabled projectName configRaw.Profiles st.world
      = (.ok profiles, w1))
    (hall : toAPIAll env profiles w1 = some (projections, w2)) :
    instancePut.work env projectName name configRaw inst apiProfiles st =
      ((env.AllowInstanceUpdate projectName name configRaw inst.LocalConfig w2).1,
        apiProfiles ++ projections,
        ⟨(env.AllowInstanceUpdate projectName name configRaw inst.LocalConfig w2).2,
          st.trace ++ [Event.GetProfilesIfEnabled projectName configRaw.Profiles] ++
            profiles.map Event.ToAPI ++ [Event.AllowInstanceUpdate projectName name]⟩) := by
  simp only [instancePut.work, hget]
  rw [instancePut.toAPILoop_of_converted env profiles apiProfiles projections
    (st.log w1 (.GetProfilesIfEnabled projectName configRaw.Profiles)) w2 hall]
  simp [St.log]

/-- A failing run of the work function is answered with its error. -/
theorem instancePut_of_run_fails {W : Type} (env : Env W) (r : Request) (st : St W)
    (instanceType : InstanceType) (projectName name : String) (inst : Instance) (w1 w2 : W)
    (configRaw : InstancePut) (i : Nat) (apiProfiles apiProfiles1 : List APIProfile)
    (sti st4 : St W) (err : Error)
    (hl : Loaded env r st instanceType projectName name inst w1 w2)
    (hetag : env.EtagCheck r (etagOf inst) = none)
    (hdec : env.Decode r.body = .ok configRaw)
    (hrestore : configRaw.Restore = "")
    (hi : i ≤ env.commitRefusals)
    (hrun : Transaction.runState (instancePut.work env projectName name configRaw inst) i []
      (afterDecode st projectName name w2) = some (apiProfiles, sti))
    (hwork : instancePut.work env projectName name configRaw inst apiProfiles sti
      = (some err, apiProfiles1, st4)) :
    instancePut env r st = (.SmartError err, ⟨st4.world, st4.trace ++ [.TransactionRollback]⟩) :=
  instancePut_transaction_fails env r st instanceType projectName name inst w1 w2
    configRaw err apiProfiles1 _ hl hetag hdec hrestore
    (Transaction_of_run_fails (instancePut.work env projectName name configRaw inst) i
      env.commitRefusals [] apiProfiles apiProfiles1 (afterDecode st projectName name w2) sti st4
      err hi hrun hwork)

/-- A decoded plain update that is answered with `SmartError` has made no call that creates an
operation or mutates an instance. -/
theorem instancePut_SmartError_trace {W : Type} (env : Env W) (r : Request) (st : St W)
    (instanceType : InstanceType) (projectName name : String) (inst : Instance) (w1 w2 : W)
    (configRaw : InstancePut) (err : Error)
    (hl : Loaded env r st instanceType projectName name inst w1 w2)
    (hetag : env.EtagCheck r (etagOf inst) = none)
    (hdec : env.Decode r.body = .ok configRaw)
    (hrestore : configRaw.Restore = "")
    (hresp : (instancePut env r st).1 = .SmartError err) :
    ∃ evs, (instancePut env r st).2.trace = st.trace ++ evs ∧
      ∀ e ∈ evs, e.isMutation = false := by
  obtain ⟨evs, h1, h2⟩ := Transaction_trace (instancePut.work env projectName name configRaw inst)
    (instancePut.work_trace env projectName name configRaw inst) env.commitRefusals []
    (afterDecode st projectName name w2)
  rcases htx : Transaction (instancePut.work env projectName name configRaw inst)
    env.commitRefusals [] (afterDecode st projectName name w2) with ⟨res, apiProfiles, st4⟩
  rw [htx] at h1
  cases res with
  | some e =>
    have hput := instancePut_transaction_fails env r st instanceType projectName name inst w1 w2
      configRaw e apiProfiles st4 hl hetag hdec hrestore htx
    refine ⟨[Event.forwardedResponseIfInstanceIsRemote projectName name,
      Event.LoadByProjectAndName projectName name, Event.Decode, Event.TransactionBegin] ++ evs,
      ?_, ?_⟩
    · rw [hput]
      simp only at h1 ⊢
      rw [h1]
      simp [afterDecode]
    · intro e he
      simp only [List.cons_append, List.nil_append, List.mem_cons] at he
      rcases he with rfl | rfl | rfl | rfl | he
      · rfl
      · rfl
      · rfl
      · rfl
      · exact h2 e he
  | none =>
    rw [instancePut_update_path env r st instanceType projectName name inst w1 w2
      configRaw apiProfiles st4 hl hetag hdec hrestore htx] at hresp
    rcases hc : env.OperationCreate projectName .OperationClassTask .InstanceUpdate
      (instancePut.resources env name inst) st4.world with ⟨res, w5⟩
    rw [hc] at hresp
    cases res <;> cases hresp

/-- The operation in the response of a decoded request: its fields, and which of the two closures
it carries. -/
theorem instancePut_operation {W : Type} (env : Env W) (r : Request) (st : St W)
    (instanceType : InstanceType) (projectName name : String) (inst : Instance) (w1 w2 : W)
    (configRaw : InstancePut) (op : Operation W)
    (hl : Loaded env r st instanceType projectName name inst w1 w2)
    (hetag : env.EtagCheck r (etagOf inst) = none)
    (hdec : env.Decode r.body = .ok configRaw)
    (hop : (instancePut env r st).1 = .OperationResponse op) :
    op.resources = instancePut.resources env name inst ∧
    ((configRaw.Restore = "" ∧ op.opType = .InstanceUpdate ∧
        ∃ apiProfiles st4,
          Transaction (instancePut.work env projectName name configRaw inst)
            env.commitRefusals [] (afterDecode st projectName name w2)
              = (none, apiProfiles, st4) ∧
          op.onRun = some (instancePut.doUpdate env inst (architectureOf env configRaw) configRaw
            apiProfiles projectName)) ∨
      (configRaw.Restore ≠ "" ∧ op.opType = .SnapshotRestore ∧
        op.onRun = some (instancePut.doRestore env projectName name configRaw))) := by
  by_cases hrestore : configRaw.Restore = ""
  · rcases htx : Transaction (instancePut.work env projectName name configRaw inst)
      env.commitRefusals [] (afterDecode st projectName name w2) with ⟨res, apiProfiles, st4⟩
    cases res with
    | some err =>
      rw [instancePut_transaction_fails env r st instanceType projectName name inst w1 w2
        configRaw err apiProfiles st4 hl hetag hdec hrestore htx] at hop
      cases hop
    | none =>
      rw [instancePut_update_path env r st instanceType projectName name inst w1 w2
        configRaw apiProfiles st4 hl hetag hdec hrestore htx] at hop
      rcases hc : env.OperationCreate projectName .OperationClassTask .InstanceUpdate
        (instancePut.resources env name inst) st4.world with ⟨res, w5⟩
      rw [hc] at hop
      cases res with
      | some err => cases hop
      | none =>
        simp only [Response.OperationResponse.injEq] at hop
        subst hop
        exact ⟨rfl, Or.inl ⟨hrestore, rfl, apiProfiles, st4, rfl, rfl⟩⟩
  · rw [instancePut_restore_path env r st instanceType projectName name inst w1 w2
      configRaw hl hetag hdec hrestore] at hop
    rcases hc : env.OperationCreate projectName .OperationClassTask .SnapshotRestore
      (instancePut.resources env name inst) w2 with ⟨res, w5⟩
    rw [hc] at hop
    cases res with
    | some err => cases hop
    | none =>
      simp only [Response.OperationResponse.injEq] at hop
      subst hop
      exact ⟨rfl, Or.inr ⟨hrestore, rfl, rfl⟩⟩

/-- What the update closure does when it is run. -/
theorem instancePut.doUpdate_run {W : Type} (env : Env W) (inst : Instance) (architecture : Int)
    (configRaw : InstancePut) (apiProfiles : List APIProfile) (projectName : String)
    (stR : St W) :
    instancePut.doUpdate env inst architecture configRaw apiProfiles projectName stR =
      ((env.Update inst
          ⟨architecture, configRaw.Config, configRaw.Description,
            env.NewDevices configRaw.Devices, configRaw.Ephemeral, apiProfiles, projectName⟩
          true stR.world).1,
        stR.log (env.Update inst
          ⟨architecture, configRaw.Config, configRaw.Description,
            env.NewDevices configRaw.Devices, configRaw.Ephemeral, apiProfiles, projectName⟩
          true stR.world).2
          (Event.Update inst
            ⟨architecture, configRaw.Config, configRaw.Description,
              env.NewDevices configRaw.Devices, configRaw.Ephemeral, apiProfiles, projectName⟩
            true)) := by
  simp only [instancePut.doUpdate]
  split <;> simp_all

/-- The contents of the resource map of lines 173-178. -/
theorem instancePut.resources_spec {W : Type} (env : Env W) (name : String) (inst : Instance) :
    GoMap.get (instancePut.resources env name inst) "instances"
      = some [URL.mk [env.APIVersion, "instances", name]] ∧
    (inst.type = .Container →
      GoMap.get (instancePut.resources env name inst) "containers"
        = some [URL.mk [env.APIVersion, "instances", name]] ∧
      GoMap.keys (instancePut.resources env name inst) = ["instances", "containers"]) ∧
    (inst.type ≠ .Container →
      GoMap.keys (instancePut.resources env name inst) = ["instances"]) := by
  by_cases h : inst.type = .Container
  · simp [instancePut.resources, h, GoMap.set, GoMap.get, GoMap.keys]
  · simp [instancePut.resources, h, GoMap.set, GoMap.get, GoMap.keys]

theorem instancePut.toAPILoop_ArchitectureId {W : Type} (env : Env W)
    (f : String → Except Error Int) (profiles : List Profile) :
    ∀ (apiProfiles : List APIProfile) (st : St W),
      instancePut.toAPILoop { env with ArchitectureId := f } profiles apiProfiles st =
        instancePut.toAPILoop env profiles apiProfiles st := by
  induction profiles with
  | nil => intro apiProfiles st; rfl
  | cons profile rest ih =>
    intro apiProfiles st
    simp only [instancePut.toAPILoop, ih]

theorem instancePut.work_ArchitectureId {W : Type} (env : Env W)
    (f : String → Except Error Int) (projectName name : String) (configRaw : InstancePut)
    (inst : Instance) :
    instancePut.work { env with ArchitectureId := f } projectName name configRaw inst =
      instancePut.work env projectName name configRaw inst := by
  funext apiProfiles st
  simp only [instancePut.work, instancePut.toAPILoop_ArchitectureId]

/-- For a decoded request, the calls made by the handler and the world it leaves do not depend on
the architecture decoder. -/
theorem instancePut_state_ArchitectureId {W : Type} (env : Env W)
    (f : String → Except Error Int) (r : Request) (st : St W)
    (instanceType : InstanceType) (projectName name : String) (inst : Instance) (w1 w2 : W)
    (configRaw : InstancePut)
    (hl : Loaded env r st instanceType projectName name inst w1 w2)
    (hetag : env.EtagCheck r (etagOf inst) = none)
    (hdec : env.Decode r.body = .ok configRaw) :
    (instancePut { env with ArchitectureId := f } r st).2 = (instancePut env r st).2 := by
  have hl2 : Loaded { env with ArchitectureId := f } r st instanceType projectName name inst
      w1 w2 := ⟨hl.detect, hl.project, hl.unescape, hl.notSnapshot, hl.notRemote, hl.load⟩
  have hres : instancePut.resources { env with ArchitectureId := f } name inst
      = instancePut.resources env name inst := rfl
  by_cases hrestore : configRaw.Restore = ""
  · rcases htx : Transaction (instancePut.work env projectName name configRaw inst)
      env.commitRefusals [] (afterDecode st projectName name w2) with ⟨res, apiProfiles, st4⟩
    have htx2 : Transaction
        (instancePut.work { env with ArchitectureId := f } projectName name configRaw inst)
        env.commitRefusals [] (afterDecode st projectName name w2) = (res, apiProfiles, st4) := by
      rw [instancePut.work_ArchitectureId, htx]
    cases res with
    | some err =>
      rw [instancePut_transaction_fails env r st instanceType projectName name inst w1 w2
          configRaw err apiProfiles st4 hl hetag hdec hrestore htx,
        instancePut_transaction_fails _ r st instanceType projectName name inst w1 w2
          configRaw err apiProfiles st4 hl2 hetag hdec hrestore htx2]
    | none =>
      rw [instancePut_update_path env r st instanceType projectName name inst w1 w2
          configRaw apiProfiles st4 hl hetag hdec hrestore htx,
        instancePut_update_path _ r st instanceType projectName name inst w1 w2
          configRaw apiProfiles st4 hl2 hetag hdec hrestore htx2]
      rw [hres]
      dsimp only
      split <;> rfl
  · rw [instancePut_restore_path env r st instanceType projectName name inst w1 w2
        configRaw hl hetag hdec hrestore,
      instancePut_restore_path _ r st instanceType projectName name inst w1 w2
        configRaw hl2 hetag hdec hrestore]
    rw [hres]
    dsimp only
    split <;> rfl

/-! ## `instancePut`: the claims -/

/-- C1. When the ETag check on the tuple (architecture, local config, local devices, ephemeral
flag, profiles) of the loaded instance returns `err`, the handler answers `PreconditionFailed err`
and the only calls it has made are the forwarding check and the instance load: the world is the one
left by the load and the trace has no `Decode`, no transaction, no `OperationCreate`, no `Update`
and no `Restore`. Nothing is assumed about the body. -/
theorem instancePut_etag_mismatch {W : Type} (env : Env W) (r : Request) (st : St W)
    (instanceType : InstanceType) (projectName name : String) (inst : Instance) (w1 w2 : W)
    (err : Error)
    (hl : Loaded env r st instanceType projectName name inst w1 w2)
    (hetag : env.EtagCheck r
      ⟨inst.Architecture, inst.LocalConfig, inst.LocalDevices, inst.IsEphemeral, inst.Profiles⟩
        = some err) :
    (instancePut env r st).1 = .PreconditionFailed err ∧
    (instancePut env r st).2.world = w2 ∧
    (instancePut env r st).2.trace =
      st.trace ++ [Event.forwardedResponseIfInstanceIsRemote projectName name,
        Event.LoadByProjectAndName projectName name] := by
  rw [instancePut_etag_fails env r st instanceType projectName name inst w1 w2 err hl hetag]
  exact ⟨rfl, rfl, rfl⟩

/-- C1, evaluated: a stale token with a malformed body is answered after the load alone. -/
theorem instancePut_etag_mismatch_witness :
    Loaded demoEnv ⟨"/1.0/instances/web", "web", some "stale", "garbage"⟩ ⟨0, []⟩
      .Any "default" "web" (demoInstance "web") 1 2 ∧
    demoEnv.Decode "garbage" = .error ⟨"invalid character", none⟩ ∧
    (instancePut demoEnv ⟨"/1.0/instances/web", "web", some "stale", "garbage"⟩ ⟨0, []⟩).2.trace =
      [] ++ [Event.forwardedResponseIfInstanceIsRemote "default" "web",
        Event.LoadByProjectAndName "default" "web"] :=
  ⟨⟨rfl, rfl, rfl, rfl, rfl, rfl⟩, rfl,
    (instancePut_etag_mismatch demoEnv ⟨"/1.0/instances/web", "web", some "stale", "garbage"⟩
      ⟨0, []⟩ .Any "default" "web" (demoInstance "web") 1 2 ⟨"ETag mismatch", some 412⟩
      ⟨rfl, rfl, rfl, rfl, rfl, rfl⟩ rfl).2.2⟩

/-- C2. On the plain-update path, take any run of the policy work function inside the transaction
(run number `i`, started in state `sti` after `i` refused commits). If `GetProfilesIfEnabled`
returns `err`, or the profiles resolve and a call of `ToAPI` returns `err` after the calls before
it succeeded, or all profiles convert and `AllowInstanceUpdate` returns `err`, then the handler
answers `SmartError err` with that same value, and its last calls are the failing one and the
rollback. Whenever the handler answers `SmartError`, none of its calls is an `OperationCreate`, an
`Update` or a `Restore`. -/
theorem instancePut_policy_failure {W : Type} (env : Env W) (r : Request) (st : St W)
    (instanceType : InstanceType) (projectName name : String) (inst : Instance) (w1 w2 : W)
    (configRaw : InstancePut) (i : Nat) (apiProfiles : List APIProfile) (sti : St W)
    (hl : Loaded env r st instanceType projectName name inst w1 w2)
    (hetag : env.EtagCheck r (etagOf inst) = none)
    (hdec : env.Decode r.body = .ok configRaw)
    (hrestore : configRaw.Restore = "")
    (hi : i ≤ env.commitRefusals)
    (hrun : Transaction.runState (instancePut.work env projectName name configRaw inst) i []
      (afterDecode st projectName name w2) = some (apiProfiles, sti)) :
    (∀ (err : Error) (wa : W),
      env.GetProfilesIfEnabled projectName configRaw.Profiles sti.world = (.error err, wa) →
      instancePut env r st =
        (.SmartError err,
          ⟨wa, sti.trace ++ [Event.GetProfilesIfEnabled projectName configRaw.Profiles,
            Event.TransactionRollback]⟩)) ∧
    (∀ (pre post : List Profile) (profile : Profile) (projections : List APIProfile)
        (err : Error) (wa wb wc : W),
      env.GetProfilesIfEnabled projectName configRaw.Profiles sti.world
        = (.ok (pre ++ profile :: post), wa) →
      toAPIAll env pre wa = some (projections, wb) →
      env.ToAPI profile wb = (.error err, wc) →
      instancePut env r st =
        (.SmartError err,
          ⟨wc, sti.trace ++ [Event.GetProfilesIfEnabled projectName configRaw.Profiles] ++
            pre.map Event.ToAPI ++ [Event.ToAPI profile, Event.TransactionRollback]⟩)) ∧
    (∀ (profiles : List Profile) (projections : List APIProfile) (err : Error) (wa wb wc : W),
      env.GetProfilesIfEnabled projectName configRaw.Profiles sti.world = (.ok profiles, wa) →
      toAPIAll env profiles wa = some (projections, wb) →
      env.AllowInstanceUpdate projectName name configRaw inst.LocalConfig wb = (some err, wc) →
      instancePut env r st =
        (.SmartError err,
          ⟨wc, sti.trace ++ [Event.GetProfilesIfEnabled projectName configRaw.Profiles] ++
            profiles.map Event.ToAPI ++
            [Event.AllowInstanceUpdate projectName name, Event.TransactionRollback]⟩)) ∧
    (∀ err : Error, (instancePut env r st).1 = .SmartError err →
      ∃ evs, (instancePut env r st).2.trace = st.trace ++ evs ∧
        ∀ e ∈ evs, e.isMutation = false) := by
  refine ⟨?_, ?_, ?_, ?_⟩
  · intro err wa hget
    rw [instancePut_of_run_fails env r st instanceType projectName name inst w1 w2 configRaw i
      apiProfiles _ sti _ err hl hetag hdec hrestore hi hrun
      (instancePut.work_of_GetProfiles_error env projectName name configRaw inst apiProfiles sti
        err wa hget)]
    simp
  · intro pre post profile projections err wa wb wc hget hpre herr
    rw [instancePut_of_run_fails env r st instanceType projectName name inst w1 w2 configRaw i
      apiProfiles _ sti _ err hl hetag hdec hrestore hi hrun
      (instancePut.work_of_ToAPI_error env projectName name configRaw inst apiProfiles
        projections sti pre post profile err wa wb wc hget hpre herr)]
    simp
  · intro profiles projections err wa wb wc hget hall hallow
    have hwork := instancePut.work_of_resolved env projectName name configRaw inst apiProfiles
      projections sti profiles wa wb hget hall
    rw [hallow] at hwork
    rw [instancePut_of_run_fails env r st instanceType projectName name inst w1 w2 configRaw i
      apiProfiles _ sti _ err hl hetag hdec hrestore hi hrun hwork]
    simp
  · intro err hresp
    exact instancePut_SmartError_trace env r st instanceType projectName name inst w1 w2
      configRaw err hl hetag hdec hrestore hresp

/-- C2, evaluated on the three steps: a request naming the profile `missing` is answered with the
resolver's error, a request whose profile `web` does not convert with the converter's error, and
a request over the project limits with the limit check's error; each trace stops at the
rollback. -/
theorem instancePut_policy_failure_witness :
    (demoEnv.GetProfilesIfEnabled "default" ["default", "missing"] 2
        = (.error ⟨"Profile not found", some 404⟩, 3) ∧
      instancePut demoEnv (demoRequest "update-missing") ⟨0, []⟩ =
        (.SmartError ⟨"Profile not found", some 404⟩,
          ⟨3, [Event.forwardedResponseIfInstanceIsRemote "default" "web",
            Event.LoadByProjectAndName "default" "web", Event.Decode, Event.TransactionBegin,
            Event.GetProfilesIfEnabled "default" ["default", "missing"],
            Event.TransactionRollback]⟩)) ∧
    (demoEnvNoConversion.ToAPI ⟨3, "web"⟩ 4 = (.error ⟨"Profile row is gone", none⟩, 5) ∧
      instancePut demoEnvNoConversion (demoRequest "update") ⟨0, []⟩ =
        (.SmartError ⟨"Profile row is gone", none⟩,
          ⟨5, [Event.forwardedResponseIfInstanceIsRemote "default" "web",
            Event.LoadByProjectAndName "default" "web", Event.Decode, Event.TransactionBegin,
            Event.GetProfilesIfEnabled "default" ["default", "web"],
            Event.ToAPI ⟨7, "default"⟩, Event.ToAPI ⟨3, "web"⟩,
            Event.TransactionRollback]⟩)) ∧
    (demoEnvOverLimit.AllowInstanceUpdate "default" "web" demoUpdate
        (demoInstance "web").LocalConfig 5
        = (some ⟨"Reached maximum number of instances", some 403⟩, 6) ∧
      instancePut demoEnvOverLimit (demoRequest "update") ⟨0, []⟩ =
        (.SmartError ⟨"Reached maximum number of instances", some 403⟩,
          ⟨6, [Event.forwardedResponseIfInstanceIsRemote "default" "web",
            Event.LoadByProjectAndName "default" "web", Event.Decode, Event.TransactionBegin,
            Event.GetProfilesIfEnabled "default" ["default", "web"],
            Event.ToAPI ⟨7, "default"⟩, Event.ToAPI ⟨3, "web"⟩,
            Event.AllowInstanceUpdate "default" "web", Event.TransactionRollback]⟩)) :=
  ⟨⟨rfl,
    (instancePut_policy_failure demoEnv (demoRequest "update-missing") ⟨0, []⟩ .Any "default"
      "web" (demoInstance "web") 1 2
      ⟨"mips", [], [], false, ["default", "missing"], "", false, ""⟩ 0 []
      ⟨2, [Event.forwardedResponseIfInstanceIsRemote "default" "web",
        Event.LoadByProjectAndName "default" "web", Event.Decode, Event.TransactionBegin]⟩
      ⟨rfl, rfl, rfl, rfl, rfl, rfl⟩ rfl rfl rfl (Nat.le_refl 0) rfl).1
      ⟨"Profile not found", some 404⟩ 3 rfl⟩,
   ⟨rfl,
    (instancePut_policy_failure demoEnvNoConversion (demoRequest "update") ⟨0, []⟩ .Any
      "default" "web" (demoInstance "web") 1 2 demoUpdate 0 []
      ⟨2, [Event.forwardedResponseIfInstanceIsRemote "default" "web",
        Event.LoadByProjectAndName "default" "web", Event.Decode, Event.TransactionBegin]⟩
      ⟨rfl, rfl, rfl, rfl, rfl, rfl⟩ rfl rfl rfl (Nat.le_refl 0) rfl).2.1
      [⟨7, "default"⟩] [] ⟨3, "web"⟩ [⟨"default", "", [], []⟩]
      ⟨"Profile row is gone", none⟩ 3 4 5 rfl rfl rfl⟩,
   ⟨rfl,
    (instancePut_policy_failure demoEnvOverLimit (demoRequest "update") ⟨0, []⟩ .Any
      "default" "web" (demoInstance "web") 1 2 demoUpdate 0 []
      ⟨2, [Event.forwardedResponseIfInstanceIsRemote "default" "web",
        Event.LoadByProjectAndName "default" "web", Event.Decode, Event.TransactionBegin]⟩
      ⟨rfl, rfl, rfl, rfl, rfl, rfl⟩ rfl rfl rfl (Nat.le_refl 0) rfl).2.2.1
      [⟨7, "default"⟩, ⟨3, "web"⟩] [⟨"default", "", [], []⟩, ⟨"web", "", [], []⟩]
      ⟨"Reached maximum number of instances", some 403⟩ 3 5 6 rfl rfl rfl⟩⟩

/-- C3. On both paths that reach operation creation, `OperationCreate` is called (as the last
call) with the resource map of the handler, which every created operation carries. That map has
under `instances` exactly the URL built from `APIVersion`, `instances` and the instance name; for
a container it has `containers` with the same URL list and no third key; for any other instance
type `instances` is its only key. -/
theorem instancePut_resource_map {W : Type} (env : Env W) (r : Request) (st : St W)
    (instanceType : InstanceType) (projectName name : String) (inst : Instance) (w1 w2 : W)
    (configRaw : InstancePut)
    (hl : Loaded env r st instanceType projectName name inst w1 w2)
    (hetag : env.EtagCheck r (etagOf inst) = none)
    (hdec : env.Decode r.body = .ok configRaw) :
    (∀ apiProfiles st4, configRaw.Restore = "" →
      Transaction (instancePut.work env projectName name configRaw inst)
        env.commitRefusals [] (afterDecode st projectName name w2) = (none, apiProfiles, st4) →
      (instancePut env r st).2.trace = st4.trace ++
        [Event.OperationCreate projectName .OperationClassTask .InstanceUpdate
          (instancePut.resources env name inst)]) ∧
    (configRaw.Restore ≠ "" →
      (instancePut env r st).2.trace = (afterDecode st projectName name w2).trace ++
        [Event.OperationCreate projectName .OperationClassTask .SnapshotRestore
          (instancePut.resources env name inst)]) ∧
    (∀ op, (instancePut env r st).1 = .OperationResponse op →
      op.resources = instancePut.resources env name inst) ∧
    GoMap.get (instancePut.resources env name inst) "instances"
      = some [URL.mk [env.APIVersion, "instances", name]] ∧
    (inst.type = .Container →
      GoMap.get (instancePut.resources env name inst) "containers"
        = some [URL.mk [env.APIVersion, "instances", name]] ∧
      GoMap.keys (instancePut.resources env name inst) = ["instances", "containers"]) ∧
    (inst.type ≠ .Container →
      GoMap.keys (instancePut.resources env name inst) = ["instances"]) := by
  refine ⟨?_, ?_, ?_, instancePut.resources_spec env name inst⟩
  · intro apiProfiles st4 hrestore htx
    rw [instancePut_update_path env r st instanceType projectName name inst w1 w2
      configRaw apiProfiles st4 hl hetag hdec hrestore htx]
    split <;> rfl
  · intro hrestore
    rw [instancePut_restore_path env r st instanceType projectName name inst w1 w2
      configRaw hl hetag hdec hrestore]
    split <;> rfl
  · intro op hop
    exact (instancePut_operation env r st instanceType projectName name inst w1 w2 configRaw op
      hl hetag hdec hop).1

/-- C3, evaluated: restoring the container `web` registers the operation under `instances` and
`containers`, both holding the URL of `web`. -/
theorem instancePut_resource_map_witness :
    Loaded demoEnv ⟨"/1.0/instances/web", "web", none, "restore"⟩ ⟨0, []⟩
      .Any "default" "web" (demoInstance "web") 1 2 ∧
    (demoInstance "web").type = .Container ∧
    (instancePut demoEnv ⟨"/1.0/instances/web", "web", none, "restore"⟩ ⟨0, []⟩).2.trace =
      (afterDecode ⟨0, []⟩ "default" "web" 2).trace ++
        [Event.OperationCreate "default" .OperationClassTask .SnapshotRestore
          (instancePut.resources demoEnv "web" (demoInstance "web"))] ∧
    instancePut.resources demoEnv "web" (demoInstance "web") =
      [("instances", [URL.mk ["1.0", "instances", "web"]]),
        ("containers", [URL.mk ["1.0", "instances", "web"]])] :=
  ⟨⟨rfl, rfl, rfl, rfl, rfl, rfl⟩, rfl,
    (instancePut_resource_map demoEnv ⟨"/1.0/instances/web", "web", none, "restore"⟩ ⟨0, []⟩
      .Any "default" "web" (demoInstance "web") 1 2
      ⟨"", [], [], false, [], "snap0", false, ""⟩
      ⟨rfl, rfl, rfl, rfl, rfl, rfl⟩ rfl rfl).2.1 (by decide), rfl⟩

/-- C8. A decoded request is in exactly one mode, chosen by `Restore = ""` alone.

When `Restore` is empty the handler runs the policy transaction right after the decoding and its
answer is decided by it: the transaction's error, or the outcome of `OperationCreate` with type
`InstanceUpdate`. The work function of that transaction calls `GetProfilesIfEnabled` on the
request's profiles, then `ToAPI` on each resolved profile, then `AllowInstanceUpdate` on the
request and the local configuration, stops at the first error and otherwise returns the verdict of
`AllowInstanceUpdate`. A created operation has type `InstanceUpdate` and its closure is the single
call `Update(args, true)` on the loaded instance, whose result it returns.

When `Restore` is not empty the only call after the decoding is `OperationCreate` with type
`SnapshotRestore` (no transaction, no profile or limit check), and a created operation has type
`SnapshotRestore` and a closure that is `instanceSnapRestore` on the request's restore value and
stateful flag. -/
theorem instancePut_modes {W : Type} (env : Env W) (r : Request) (st : St W)
    (instanceType : InstanceType) (projectName name : String) (inst : Instance) (w1 w2 : W)
    (configRaw : InstancePut)
    (hl : Loaded env r st instanceType projectName name inst w1 w2)
    (hetag : env.EtagCheck r (etagOf inst) = none)
    (hdec : env.Decode r.body = .ok configRaw) :
    (configRaw.Restore = "" →
      (instancePut env r st =
        match Transaction (instancePut.work env projectName name configRaw inst)
            env.commitRefusals [] (afterDecode st projectName name w2) with
        | (some err, _, st4) => (.SmartError err, st4)
        | (none, apiProfiles, st4) =>
          match env.OperationCreate projectName .OperationClassTask .InstanceUpdate
              (instancePut.resources env name inst) st4.world with
          | (some err, w5) =>
            (.InternalError err, ⟨w5, st4.trace ++
              [Event.OperationCreate projectName .OperationClassTask .InstanceUpdate
                (instancePut.resources env name inst)]⟩)
          | (none, w5) =>
            (.OperationResponse ⟨projectName, .OperationClassTask, .InstanceUpdate,
                instancePut.resources env name inst, none,
                some (instancePut.doUpdate env inst (architectureOf env configRaw) configRaw
                  apiProfiles projectName), none, none⟩,
              ⟨w5, st4.trace ++
                [Event.OperationCreate projectName .OperationClassTask .InstanceUpdate
                  (instancePut.resources env name inst)]⟩)) ∧
      (∃ rest, (instancePut env r st).2.trace =
        (afterDecode st projectName name w2).trace ++ Event.TransactionBegin :: rest) ∧
      (∀ (apiProfiles : List APIProfile) (s : St W) (err : Error) (wa : W),
        env.GetProfilesIfEnabled projectName configRaw.Profiles s.world = (.error err, wa) →
        instancePut.work env projectName name configRaw inst apiProfiles s =
          (some err, apiProfiles,
            ⟨wa, s.trace ++ [Event.GetProfilesIfEnabled projectName configRaw.Profiles]⟩)) ∧
      (∀ (apiProfiles projections : List APIProfile) (s : St W) (pre post : List Profile)
          (profile : Profile) (err : Error) (wa wb wc : W),
        env.GetProfilesIfEnabled projectName configRaw.Profiles s.world
          = (.ok (pre ++ profile :: post), wa) →
        toAPIAll env pre wa = some (projections, wb) →
        env.ToAPI profile wb = (.error err, wc) →
        instancePut.work env projectName name configRaw inst apiProfiles s =
          (some err, apiProfiles ++ projections,
            ⟨wc, s.trace ++ [Event.GetProfilesIfEnabled projectName configRaw.Profiles] ++
              pre.map Event.ToAPI ++ [Event.ToAPI profile]⟩)) ∧
      (∀ (apiProfiles projections : List APIProfile) (s : St W) (profiles : List Profile)
          (wa wb : W),
        env.GetProfilesIfEnabled projectName configRaw.Profiles s.world = (.ok profiles, wa) →
        toAPIAll env profiles wa = some (projections, wb) →
        instancePut.work env projectName name configRaw inst apiProfiles s =
          ((env.AllowInstanceUpdate projectName name configRaw inst.LocalConfig wb).1,
            apiProfiles ++ projections,
            ⟨(env.AllowInstanceUpdate projectName name configRaw inst.LocalConfig wb).2,
              s.trace ++ [Event.GetProfilesIfEnabled projectName configRaw.Profiles] ++
                profiles.map Event.ToAPI ++ [Event.AllowInstanceUpdate projectName name]⟩)) ∧
      ∀ op, (instancePut env r st).1 = .OperationResponse op →
        op.opType = .InstanceUpdate ∧
        ∃ apiProfiles st4 run,
          Transaction (instancePut.work env projectName name configRaw inst)
            env.commitRefusals [] (afterDecode st projectName name w2)
              = (none, apiProfiles, st4) ∧
          op.onRun = some run ∧
          ∀ stR : St W,
            run stR =
              ((env.Update inst
                  ⟨architectureOf env configRaw, configRaw.Config, configRaw.Description,
                    env.NewDevices configRaw.Devices, configRaw.Ephemeral, apiProfiles,
                    projectName⟩
                  true stR.world).1,
                ⟨(env.Update inst
                  ⟨architectureOf env configRaw, configRaw.Config, configRaw.Description,
                    env.NewDevices configRaw.Devices, configRaw.Ephemeral, apiProfiles,
                    projectName⟩
                  true stR.world).2,
                  stR.trace ++ [Event.Update inst
                    ⟨architectureOf env configRaw, configRaw.Config, configRaw.Description,
                      env.NewDevices configRaw.Devices, configRaw.Ephemeral, apiProfiles,
                      projectName⟩
                    true]⟩)) ∧
    (configRaw.Restore ≠ "" →
      (instancePut env r st).2.trace = (afterDecode st projectName name w2).trace ++
        [Event.OperationCreate projectName .OperationClassTask .SnapshotRestore
          (instancePut.resources env name inst)] ∧
      ∀ op, (instancePut env r st).1 = .OperationResponse op →
        op.opType = .SnapshotRestore ∧
        ∃ run, op.onRun = some run ∧
          ∀ stR, run stR =
            instanceSnapRestore env projectName name configRaw.Restore configRaw.Stateful stR) := by
  constructor
  · intro hrestore
    refine ⟨?_, ?_, ?_, ?_, ?_, ?_⟩
    · rcases htx : Transaction (instancePut.work env projectName name configRaw inst)
        env.commitRefusals [] (afterDecode st projectName name w2) with ⟨res, apiProfiles, st4⟩
      cases res with
      | some err =>
        exact instancePut_transaction_fails env r st instanceType projectName name inst w1 w2
          configRaw err apiProfiles st4 hl hetag hdec hrestore htx
      | none =>
        exact instancePut_update_path env r st instanceType projectName name inst w1 w2
          configRaw apiProfiles st4 hl hetag hdec hrestore htx
    · obtain ⟨evs, h1, _⟩ := Transaction_trace
        (instancePut.work env projectName name configRaw inst)
        (instancePut.work_trace env projectName name configRaw inst) env.commitRefusals []
        (afterDecode st projectName name w2)
      rcases htx : Transaction (instancePut.work env projectName name configRaw inst)
        env.commitRefusals [] (afterDecode st projectName name w2) with ⟨res, apiProfiles, st4⟩
      rw [htx] at h1
      simp only at h1
      cases res with
      | some err =>
        rw [instancePut_transaction_fails env r st instanceType projectName name inst w1 w2
          configRaw err apiProfiles st4 hl hetag hdec hrestore htx]
        exact ⟨evs, h1⟩
      | none =>
        rw [instancePut_update_path env r st instanceType projectName name inst w1 w2
          configRaw apiProfiles st4 hl hetag hdec hrestore htx]
        refine ⟨evs ++ [Event.OperationCreate projectName .OperationClassTask .InstanceUpdate
          (instancePut.resources env name inst)], ?_⟩
        split <;> simp [St.log, h1]
    · intro apiProfiles s err wa hget
      exact instancePut.work_of_GetProfiles_error env projectName name configRaw inst
        apiProfiles s err wa hget
    · intro apiProfiles projections s pre post profile err wa wb wc hget hpre herr
      exact instancePut.work_of_ToAPI_error env projectName name configRaw inst apiProfiles
        projections s pre post profile err wa wb wc hget hpre herr
    · intro apiProfiles projections s profiles wa wb hget hall
      exact instancePut.work_of_resolved env projectName name configRaw inst apiProfiles
        projections s profiles wa wb hget hall
    · intro op hop
      rcases (instancePut_operation env r st instanceType projectName name inst w1 w2 configRaw
        op hl hetag hdec hop).2 with ⟨_, hty, apiProfiles, st4, htx, hrun⟩ | ⟨hne, _, _⟩
      · refine ⟨hty, apiProfiles, st4, _, htx, hrun, fun stR => ?_⟩
        rw [instancePut.doUpdate_run]
        rfl
      · exact absurd hrestore hne
  · intro hrestore
    constructor
    · rw [instancePut_restore_path env r st instanceType projectName name inst w1 w2
        configRaw hl hetag hdec hrestore]
      split <;> rfl
    · intro op hop
      rcases (instancePut_operation env r st instanceType projectName name inst w1 w2 configRaw
        op hl hetag hdec hop).2 with ⟨he, _, _⟩ | ⟨_, hty, hrun⟩
      · exact absurd he hrestore
      · exact ⟨hty, _, hrun, fun stR => rfl⟩

/-- C8, evaluated in both modes: the request `update` runs the transaction (resolver, two
conversions, limit check, commit) before `OperationCreate` with type `InstanceUpdate`; the
request `restore` goes from the decoding straight to `OperationCreate` with type
`SnapshotRestore`. -/
theorem instancePut_modes_witness :
    (Loaded demoEnv (demoRequest "update") ⟨0, []⟩ .Any "default" "web" (demoInstance "web") 1 2 ∧
      demoEnv.Decode "update" = .ok demoUpdate ∧ demoUpdate.Restore = "" ∧
      (instancePut demoEnv (demoRequest "update") ⟨0, []⟩).2 =
        ⟨7, [Event.forwardedResponseIfInstanceIsRemote "default" "web",
          Event.LoadByProjectAndName "default" "web", Event.Decode, Event.TransactionBegin,
          Event.GetProfilesIfEnabled "default" ["default", "web"],
          Event.ToAPI ⟨7, "default"⟩, Event.ToAPI ⟨3, "web"⟩,
          Event.AllowInstanceUpdate "default" "web", Event.TransactionCommit,
          Event.OperationCreate "default" .OperationClassTask .InstanceUpdate
            (instancePut.resources demoEnv "web" (demoInstance "web"))]⟩) ∧
    (Loaded demoEnv (demoRequest "restore") ⟨0, []⟩ .Any "default" "web"
        (demoInstance "web") 1 2 ∧
      demoEnv.Decode "restore" = .ok ⟨"", [], [], false, [], "snap0", false, ""⟩ ∧
      (instancePut demoEnv (demoRequest "restore") ⟨0, []⟩).2.trace =
        (afterDecode ⟨0, []⟩ "default" "web" 2).trace ++
          [Event.OperationCreate "default" .OperationClassTask .SnapshotRestore
            (instancePut.resources demoEnv "web" (demoInstance "web"))]) :=
  ⟨⟨⟨rfl, rfl, rfl, rfl, rfl, rfl⟩, rfl, rfl,
    by
      rw [((instancePut_modes demoEnv (demoRequest "update") ⟨0, []⟩ .Any "default" "web"
        (demoInstance "web") 1 2 demoUpdate ⟨rfl, rfl, rfl, rfl, rfl, rfl⟩ rfl rfl).1 rfl).1]
      rfl⟩,
   ⟨⟨rfl, rfl, rfl, rfl, rfl, rfl⟩, rfl,
    ((instancePut_modes demoEnv (demoRequest "restore") ⟨0, []⟩ .Any "default" "web"
      (demoInstance "web") 1 2 ⟨"", [], [], false, [], "snap0", false, ""⟩
      ⟨rfl, rfl, rfl, rfl, rfl, rfl⟩ rfl rfl).2 (by decide)).1⟩⟩

/-- The closure of a created update operation makes one call, `Update(args, true)`, on the very
object loaded at request entry; it looks no instance up. `args` holds the decoded architecture
code, the request's config, description, devices (through `NewDevices`), ephemeral flag, the
profile list left by the policy transaction, and the request's project. The closure returns what
`Update` returns. -/
theorem instancePut_update_closure {W : Type} (env : Env W) (r : Request) (st : St W)
    (instanceType : InstanceType) (projectName name : String) (inst : Instance) (w1 w2 : W)
    (configRaw : InstancePut) (op : Operation W)
    (hl : Loaded env r st instanceType projectName name inst w1 w2)
    (hetag : env.EtagCheck r (etagOf inst) = none)
    (hdec : env.Decode r.body = .ok configRaw)
    (hrestore : configRaw.Restore = "")
    (hop : (instancePut env r st).1 = .OperationResponse op) :
    ∃ apiProfiles st4 run,
      Transaction (instancePut.work env projectName name configRaw inst)
        env.commitRefusals [] (afterDecode st projectName name w2) = (none, apiProfiles, st4) ∧
      op.onRun = some run ∧
      ∀ stR : St W,
        run stR =
          ((env.Update inst
              ⟨architectureOf env configRaw, configRaw.Config, configRaw.Description,
                env.NewDevices configRaw.Devices, configRaw.Ephemeral, apiProfiles, projectName⟩
              true stR.world).1,
            ⟨(env.Update inst
              ⟨architectureOf env configRaw, configRaw.Config, configRaw.Description,
                env.NewDevices configRaw.Devices, configRaw.Ephemeral, apiProfiles, projectName⟩
              true stR.world).2,
              stR.trace ++ [Event.Update inst
                ⟨architectureOf env configRaw, configRaw.Config, configRaw.Description,
                  env.NewDevices configRaw.Devices, configRaw.Ephemeral, apiProfiles,
                  projectName⟩
                true]⟩) := by
  rcases (instancePut_operation env r st instanceType projectName name inst w1 w2 configRaw
    op hl hetag hdec hop).2 with ⟨_, _, apiProfiles, st4, htx, hrun⟩ | ⟨hne, _, _⟩
  · refine ⟨apiProfiles, st4, _, htx, hrun, fun stR => ?_⟩
    rw [instancePut.doUpdate_run]
    rfl
  · exact absurd hrestore hne

/-- C7. The architecture decoder cannot fail the request. For a decoded request the calls made by
the handler and the world it leaves are the same whatever the decoder answers; and when the policy
transaction and the operation creation succeed, the handler returns the operation, whose closure
is the call `Update(args, true)` with `args.Architecture = 0` if the decoder rejects the request's
architecture string, and with the decoded identifier if it accepts it. -/
theorem instancePut_architecture_lenient {W : Type} (env : Env W) (r : Request) (st : St W)
    (instanceType : InstanceType) (projectName name : String) (inst : Instance) (w1 w2 w5 : W)
    (configRaw : InstancePut) (apiProfiles : List APIProfile) (st4 : St W)
    (hl : Loaded env r st instanceType projectName name inst w1 w2)
    (hetag : env.EtagCheck r (etagOf inst) = none)
    (hdec : env.Decode r.body = .ok configRaw)
    (hrestore : configRaw.Restore = "")
    (htx : Transaction (instancePut.work env projectName name configRaw inst)
      env.commitRefusals [] (afterDecode st projectName name w2) = (none, apiProfiles, st4))
    (hcreate : env.OperationCreate projectName .OperationClassTask .InstanceUpdate
      (instancePut.resources env name inst) st4.world = (none, w5)) :
    (∀ f : String → Except Error Int,
      (instancePut { env with ArchitectureId := f } r st).2 = (instancePut env r st).2) ∧
    ∃ op run, (instancePut env r st).1 = .OperationResponse op ∧ op.onRun = some run ∧
      ∀ stR : St W, ∃ args,
        (run stR).2.trace = stR.trace ++ [Event.Update inst args true] ∧
        (∀ e, env.ArchitectureId configRaw.Architecture = .error e → args.Architecture = 0) ∧
        (∀ a, env.ArchitectureId configRaw.Architecture = .ok a → args.Architecture = a) ∧
        run stR =
          ((env.Update inst args true stR.world).1,
            ⟨(env.Update inst args true stR.world).2,
              stR.trace ++ [Event.Update inst args true]⟩) := by
  refine ⟨fun f => instancePut_state_ArchitectureId env f r st instanceType projectName name inst
    w1 w2 configRaw hl hetag hdec, ?_⟩
  rw [instancePut_update_path env r st instanceType projectName name inst w1 w2
    configRaw apiProfiles st4 hl hetag hdec hrestore htx, hcreate]
  refine ⟨_, _, rfl, rfl, fun stR => ?_⟩
  rw [instancePut.doUpdate_run]
  refine ⟨_, rfl, ?_, ?_, rfl⟩
  · intro e he
    simp [architectureOf, he]
  · intro a ha
    simp [architectureOf, ha]

/-- C7, evaluated: the unknown architecture `mips` is accepted and reaches `Update` as 0. -/
theorem instancePut_architecture_lenient_witness :
    Loaded demoEnv (demoRequest "update-mips") ⟨0, []⟩ .Any "default" "web"
      (demoInstance "web") 1 2 ∧
    demoEnv.ArchitectureId "mips" = .error ⟨"unknown architecture", none⟩ ∧
    ∃ op run, (instancePut demoEnv (demoRequest "update-mips") ⟨0, []⟩).1
        = .OperationResponse op ∧ op.onRun = some run ∧
      ∃ args, (run ⟨40, []⟩).2.trace = [] ++ [Event.Update (demoInstance "web") args true] ∧
        args.Architecture = 0 :=
  ⟨⟨rfl, rfl, rfl, rfl, rfl, rfl⟩, rfl,
    (instancePut_architecture_lenient demoEnv (demoRequest "update-mips") ⟨0, []⟩ .Any
      "default" "web" (demoInstance "web") 1 2 7 { demoUpdate with Architecture := "mips" }
      [⟨"default", "", [], []⟩, ⟨"web", "", [], []⟩]
      ⟨6, [Event.forwardedResponseIfInstanceIsRemote "default" "web",
        Event.LoadByProjectAndName "default" "web", Event.Decode, Event.TransactionBegin,
        Event.GetProfilesIfEnabled "default" ["default", "web"],
        Event.ToAPI ⟨7, "default"⟩, Event.ToAPI ⟨3, "web"⟩,
        Event.AllowInstanceUpdate "default" "web", Event.TransactionCommit]⟩
      ⟨rfl, rfl, rfl, rfl, rfl, rfl⟩ rfl rfl rfl rfl rfl).2.imp
      (fun _ h => h.imp (fun _ h => ⟨h.1, h.2.1,
        (h.2.2 ⟨40, []⟩).imp (fun _ h => ⟨h.1, h.2.1 _ rfl⟩)⟩))⟩

/-! ## The profile list after the policy transaction -/

/-- A successful loop appends one projection per profile, in order. -/
theorem instancePut.toAPILoop_profiles {W : Type} (env : Env W) (profiles : List Profile) :
    ∀ (apiProfiles apiProfiles1 : List APIProfile) (st st1 : St W),
      instancePut.toAPILoop env profiles apiProfiles st = (none, apiProfiles1, st1) →
      ∃ projections, apiProfiles1 = apiProfiles ++ projections ∧
        List.Forall₂ (fun profile projection => ∃ w, (env.ToAPI profile w).1 = .ok projection)
          profiles projections := by
  induction profiles with
  | nil =>
    intro apiProfiles apiProfiles1 st st1 h
    simp only [instancePut.toAPILoop, Prod.mk.injEq, true_and] at h
    exact ⟨[], by simp [h.1], List.Forall₂.nil⟩
  | cons profile rest ih =>
    intro apiProfiles apiProfiles1 st st1 h
    rcases hp : env.ToAPI profile st.world with ⟨res, w1⟩
    cases res with
    | error err => simp [instancePut.toAPILoop, hp] at h
    | ok a =>
      simp only [instancePut.toAPILoop, hp] at h
      obtain ⟨projections, h1, h2⟩ := ih _ _ _ _ h
      exact ⟨a :: projections, by simp [h1],
        List.Forall₂.cons ⟨st.world, by rw [hp]⟩ h2⟩

/-- When the store accepts the first commit, the list left by the policy transaction is made of
the projections of the resolved profiles, one per profile and in the resolver's order. -/
theorem instancePut_profiles_single_run {W : Type} (env : Env W) (projectName name : String)
    (configRaw : InstancePut) (inst : Instance) (st st4 : St W) (apiProfiles : List APIProfile)
    (htx : Transaction (instancePut.work env projectName name configRaw inst) 0 [] st
      = (none, apiProfiles, st4)) :
    ∃ profiles w,
      env.GetProfilesIfEnabled projectName configRaw.Profiles st.world = (.ok profiles, w) ∧
      List.Forall₂ (fun profile projection => ∃ w, (env.ToAPI profile w).1 = .ok projection)
        profiles apiProfiles := by
  rcases hg : env.GetProfilesIfEnabled projectName configRaw.Profiles st.world with ⟨res, w1⟩
  cases res with
  | error err => simp [Transaction, instancePut.work, St.log, hg] at htx
  | ok profiles =>
    rcases hloop : instancePut.toAPILoop env profiles []
      ⟨w1, st.trace ++ [.TransactionBegin, .GetProfilesIfEnabled projectName configRaw.Profiles]⟩
      with ⟨res, apis1, st1⟩
    cases res with
    | some err => simp [Transaction, instancePut.work, St.log, hg, hloop] at htx
    | none =>
      obtain ⟨projections, h1, h2⟩ := instancePut.toAPILoop_profiles env profiles _ _ _ _ hloop
      refine ⟨profiles, w1, rfl, ?_⟩
      simp only [Transaction, instancePut.work, St.log, hg, List.append_assoc,
        List.singleton_append, hloop] at htx
      split at htx
      · simp at htx
      · simp only [Prod.mk.injEq, true_and] at htx
        rename_i heq
        simp only [Prod.mk.injEq] at heq
        rw [← htx.1, ← heq.2.1, h1]
        simpa using h2

/-- C10, evaluated at a failing input. The store refuses the first commit once, so the work
function runs twice. The resolver returns the two profiles `default` and `web` on each run, and
the list handed to `Update` has four entries: the projections of both runs. -/
theorem instancePut_profiles_repeated_after_rerun :
    (demoEnv.GetProfilesIfEnabled "default" demoUpdate.Profiles 2).1
      = .ok [⟨7, "default"⟩, ⟨3, "web"⟩] ∧
    ∃ op run,
      (instancePut { demoEnv with commitRefusals := 1 } (demoRequest "update") ⟨0, []⟩).1
        = .OperationResponse op ∧
      op.onRun = some run ∧
      (run ⟨40, []⟩).2.trace =
        [Event.Update (demoInstance "web")
          (demoArgs [⟨"default", "", [], []⟩, ⟨"web", "", [], []⟩,
            ⟨"default", "", [], []⟩, ⟨"web", "", [], []⟩]) true] :=
  ⟨rfl, _, _, rfl, rfl, rfl⟩

/-- C9, evaluated at a failing input. The store refuses the first commit once, so the work
function runs twice. The closure of the created operation makes the single call
`Update(args, true)` on the loaded instance `web` and returns its result, and `args` carries the
decoded architecture code and the request's config, description, devices, ephemeral flag and
project. But `args.Profiles` is not the project-resolved profile list: the resolver returns the
two profiles `default` and `web`, whose projections are the two-entry list, and `args.Profiles`
holds four entries. -/
theorem instancePut_update_closure_after_rerun :
    (demoEnv.GetProfilesIfEnabled "default" demoUpdate.Profiles 2).1
      = .ok [⟨7, "default"⟩, ⟨3, "web"⟩] ∧
    toAPIAll demoEnv [⟨7, "default"⟩, ⟨3, "web"⟩] 3
      = some ([⟨"default", "", [], []⟩, ⟨"web", "", [], []⟩], 5) ∧
    ∃ op run args,
      (instancePut { demoEnv with commitRefusals := 1 } (demoRequest "update") ⟨0, []⟩).1
        = .OperationResponse op ∧
      op.opType = .InstanceUpdate ∧
      op.onRun = some run ∧
      run ⟨40, []⟩ = (none, ⟨41, [Event.Update (demoInstance "web") args true]⟩) ∧
      args.Architecture = 2 ∧ args.Config = demoUpdate.Config ∧
      args.Description = demoUpdate.Description ∧ args.Devices = ⟨demoUpdate.Devices⟩ ∧
      args.Ephemeral = demoUpdate.Ephemeral ∧ args.Project = "default" ∧
      args.Profiles = [⟨"default", "", [], []⟩, ⟨"web", "", [], []⟩,
        ⟨"default", "", [], []⟩, ⟨"web", "", [], []⟩] ∧
      args.Profiles ≠ [⟨"default", "", [], []⟩, ⟨"web", "", [], []⟩] :=
  ⟨rfl, rfl, _, _,
    demoArgs [⟨"default", "", [], []⟩, ⟨"web", "", [], []⟩,
      ⟨"default", "", [], []⟩, ⟨"web", "", [], []⟩],
    rfl, rfl, rfl, rfl, rfl, rfl, rfl, rfl, rfl, rfl, rfl, by decide⟩

end Incus
